import Mathlib

/-!
# OpenGeoSys mesh layer mapper

A shallow embedding of `MshLayerMapper` (`Gui/DataView/MshLayerMapper.cpp`) and of the
parts of the `MeshLib` object model it touches (`Tri.h`, `Face.h`, `Cell.h`).

Conventions of the embedding

* A C++ pointer is an `Option`: `none` is the null pointer.
* `double` and `float` values are exact rationals (`ℚ`); rounding is not modelled.
* `size_t` is a 64 bit and `unsigned` a 32 bit machine integer; every place where the
  source narrows or may wrap carries an explicit `%`.
* An element holds the nodes it references by value; the coordinates `LayerMapping`
  writes are tracked in the node vector of the mesh.
* An operation whose behaviour C++ leaves undefined (dereferencing a null pointer, indexing
  a vector outside its extent, dividing by zero, converting a floating point value to an
  integer type that cannot hold it) ends the computation with a `Fault`.
-/

namespace MeshLib

/-- Ways in which a run leaves defined behaviour. -/
inductive Fault where
  | nullDeref
  | outOfRange
  | divByZero
  | conversion
deriving DecidableEq, Repr

/-- Number of values of a `size_t`, 2^64. -/
def SIZE_MOD : Nat := 18446744073709551616

/-- Number of values of an `unsigned`, 2^32. -/
def UINT_MOD : Nat := 4294967296

/-- Dereference of a pointer. -/
def deref {α : Type} : Option α → Except Fault α
  | some a => .ok a
  | none => .error .nullDeref

/-- The read `v[i]` of a `std::vector` or array. -/
def vecGet {α : Type} (v : List α) (i : Nat) : Except Fault α :=
  match v.get? i with
  | some a => .ok a
  | none => .error .outOfRange

/-- The write `v[i] = a` of a `std::vector` or array. -/
def vecSet {α : Type} (v : List α) (i : Nat) (a : α) : Except Fault (List α) :=
  if i < v.length then .ok (v.set i a) else .error .outOfRange

/-- The loop `for (size_t i = 0; i < n; i++) s = body i s`. -/
def forLoop {σ : Type} (body : Nat → σ → Except Fault σ) : Nat → σ → Except Fault σ
  | 0, s => .ok s
  | n + 1, s => forLoop body n s >>= body n

/-- The loop `for (size_t i = first; i < last; i++) s = body i s`. -/
def forRange {σ : Type} (body : Nat → σ → Except Fault σ) (first last : Nat) (s : σ) :
    Except Fault σ :=
  forLoop (fun k => body (first + k)) (last - first) s

/-- The quotient `a / b` of two `double`s. For `b = 0` the machine result is an infinity
or a NaN, which no rational stands for: the model stops there. -/
def fdiv (a b : ℚ) : Except Fault ℚ :=
  if b = 0 then .error .divByZero else .ok (a / b)

/-- The quotient `a / b` of two `size_t`. -/
def sizeDiv (a b : Nat) : Except Fault Nat :=
  if b = 0 then .error .divByZero else .ok (a / b)

/-- The value of `std::numeric_limits<double>::max()`. -/
def DBL_MAX : ℚ := (2 ^ 53 - 1) * 2 ^ 971

/-- The value of `std::numeric_limits<double>::min()`, the smallest positive normalised
`double`. -/
def DBL_MIN : ℚ := 1 / 2 ^ 1022

/-- Modelled from the spec: `Node` (Node.h is not part of the sources), a 3D point
`{id: unsigned, x,y,z: double}` with mutable coordinates. -/
structure Node where
  x : ℚ
  y : ℚ
  z : ℚ
  id : Nat
deriving DecidableEq

/-- Modelled from the spec: `Node::updateCoordinates`, which rewrites the three
coordinates and keeps the identifier. -/
def Node.updateCoordinates (n : Node) (x y z : ℚ) : Node :=
  { n with x := x, y := y, z := z }

/-- Modelled from the spec: the discriminator `MshElemType::type` (MshEnums.h is not part
of the sources) with the variants the spec lists. -/
inductive MshElemType where
  | LINE
  | TRIANGLE
  | QUAD
  | TETRAHEDRON
  | HEXAHEDRON
  | PRISM
deriving DecidableEq, Repr

/-- Modelled from the spec: `Element` (Element.h is not part of the sources): an ordered
list of non-owning node references, a material tag and the type discriminator. -/
structure Element where
  type : MshElemType
  nodes : List (Option Node)
  value : Nat
deriving DecidableEq

/-- The accessor `getDimension`: 2 for the `Face` classes (Face.h:34), 3 for the `Cell` classes
(Cell.h:31), 1 for line elements. -/
def Element.getDimension (e : Element) : Nat :=
  match e.type with
  | .LINE => 1
  | .TRIANGLE => 2
  | .QUAD => 2
  | .TETRAHEDRON => 3
  | .HEXAHEDRON => 3
  | .PRISM => 3

/-- The accessor `getNNodes`: 3 for `Tri` (Tri.h:59); the other counts are the fixed node counts of the
element types. -/
def Element.getNNodes (e : Element) : Nat :=
  match e.type with
  | .LINE => 2
  | .TRIANGLE => 3
  | .QUAD => 4
  | .TETRAHEDRON => 4
  | .HEXAHEDRON => 8
  | .PRISM => 6

/-- The accessor `getType` (Tri.h:65). -/
def Element.getType (e : Element) : MshElemType := e.type

/-- The accessor `getNode(j)`: the j-th node pointer of the element, dereferenced by the caller. -/
def Element.getNode (e : Element) (j : Nat) : Except Fault Node :=
  vecGet e.nodes j >>= deref

/-- Modelled from the spec: the constructor `Prism(Node** nodes, unsigned value)` (Prism.h is
not part of the sources) stores the node array and the material tag. The volume the
spec lists for a cell is not modelled. -/
def Prism (e_nodes : List (Option Node)) (value : Nat) : Element :=
  { type := .PRISM, nodes := e_nodes, value := value }

/-- Modelled from the spec: the constructor `Hex(Node** nodes, unsigned value)` (Hex.h is
not part of the sources) stores the node array and the material tag. The volume the
spec lists for a cell is not modelled. -/
def Hex (e_nodes : List (Option Node)) (value : Nat) : Element :=
  { type := .HEXAHEDRON, nodes := e_nodes, value := value }

/-- Modelled from the spec: `Mesh` (Mesh.h is not part of the sources): a name, the node
sequence and the element sequence, both held as vectors of pointers. -/
structure Mesh where
  name : String
  nodes : List (Option Node)
  elems : List (Option Element)
deriving DecidableEq

/-- The accessor `Mesh::getNNodes`, the length of the node vector. -/
def Mesh.getNNodes (m : Mesh) : Nat := m.nodes.length

/-- The accessor `Mesh::getNElements`, the length of the element vector. -/
def Mesh.getNElements (m : Mesh) : Nat := m.elems.length

/-- Modelled from the spec: `Mesh::getDimension` is the largest dimension of an element
present in the mesh. -/
def Mesh.getDimension (m : Mesh) : Nat :=
  (m.elems.filterMap id).foldr (fun e d => max e.getDimension d) 0

/-- An element as the object model requires it: as many node references as its type
prescribes, none of them null, each naming a node of a mesh with `nNodes` nodes. -/
def Element.WellFormed (nNodes : Nat) (e : Element) : Prop :=
  e.nodes.length = e.getNNodes ∧ ∀ p ∈ e.nodes, ∃ n, p = some n ∧ n.id < nNodes

/-- A mesh as the object model requires it: no null node, no null element, and every
element well formed over the nodes of the mesh. -/
def Mesh.WellFormed (m : Mesh) : Prop :=
  (∀ p ∈ m.nodes, p ≠ none) ∧ ∀ p ∈ m.elems, ∃ e, p = some e ∧ e.WellFormed m.getNNodes

/-- The material tags of the elements present in an element sequence, in order. -/
def tags (elems : List (Option Element)) : List Nat :=
  (elems.filterMap id).map Element.value

/-- Number of 2D elements (triangles and quadrilaterals) in an element sequence. -/
def count2D (elems : List (Option Element)) : Nat :=
  ((elems.filterMap id).filter (fun e => e.getDimension = 2)).length

end MeshLib

namespace MshLayerMapper

open MeshLib

/-- Lines 45-49: the inner loop that copies the nodes of the source mesh for one layer.
The copy of node `i` is stored at `new_nodes[i]`. -/
def copyNodes (nodes : List (Option Node)) (nNodes node_offset : Nat) (z_offset : ℚ)
    (new_nodes : List (Option Node)) : Except Fault (List (Option Node)) :=
  forLoop (fun i new_nodes => do
    let coords ← vecGet nodes i >>= deref
    vecSet new_nodes i
      (some ⟨coords.x, coords.y, coords.z - z_offset, (node_offset + i) % UINT_MOD⟩))
    nNodes new_nodes

/-- Lines 63-70: the node array `e_nodes` of the extruded element: entry `j` is
`new_nodes[node_id]` and entry `j + nElemNodes` is `new_nodes[node_id + nNodes]`. -/
def extrudedNodes (sfc_elem : Element) (new_nodes : List (Option Node))
    (nNodes node_offset : Nat) : Except Fault (List (Option Node)) :=
  let nElemNodes := sfc_elem.getNNodes
  forLoop (fun j e_nodes => do
    let nd ← sfc_elem.getNode j
    let node_id := (nd.id + node_offset) % UINT_MOD
    let lower ← vecGet new_nodes node_id
    let e_nodes ← vecSet e_nodes j lower
    let upper ← vecGet new_nodes ((node_id + nNodes) % SIZE_MOD)
    vecSet e_nodes (j + nElemNodes) upper)
    nElemNodes (List.replicate (2 * nElemNodes) none)

/-- Lines 57-83: the loop over the source elements for one layer. Every element is appended
to `new_elems` with `push_back`. -/
def extrudeElems (elems : List (Option Element)) (nElems nNodes node_offset mat_id : Nat)
    (new_nodes : List (Option Node)) (new_elems : List (Option Element)) :
    Except Fault (List (Option Element)) :=
  forLoop (fun i new_elems => do
    let sfc_elem ← vecGet elems i >>= deref
    if sfc_elem.getDimension = 2 then
      let e_nodes ← extrudedNodes sfc_elem new_nodes nNodes node_offset
      if sfc_elem.getType = .TRIANGLE then
        pure (new_elems ++ [some (Prism e_nodes mat_id)])
      else if sfc_elem.getType = .QUAD then
        pure (new_elems ++ [some (Hex e_nodes mat_id)])
      else
        pure new_elems
    else
      pure new_elems)
    nElems new_elems

/-- Lines 40-85: the body of the loop over the layers. -/
def layerStep (mesh : Mesh) (nLayers : Nat) (thickness : ℚ) (layer_id : Nat)
    (s : List (Option Node) × List (Option Element)) :
    Except Fault (List (Option Node) × List (Option Element)) := do
  let nNodes := mesh.getNNodes
  let nElems := mesh.getNElements
  let node_offset := (nNodes * layer_id) % UINT_MOD
  let z_offset : ℚ := (layer_id : ℚ) * thickness
  let new_nodes ← copyNodes mesh.nodes nNodes node_offset z_offset s.1
  if layer_id > 0 then
    let node_offset := (((node_offset : Int) - (nNodes : Int)) % (UINT_MOD : Int)).toNat
    let mat_id := (nLayers - layer_id) % UINT_MOD
    let new_elems ← extrudeElems mesh.elems nElems nNodes node_offset mat_id new_nodes s.2
    pure (new_nodes, new_elems)
  else
    pure (new_nodes, s.2)

/-- The function `MshLayerMapper::CreateLayers` (lines 25-88). The result `none` is the
null pointer returned when the precondition fails. The loop `layer_id <= nLayers` is the one
of a layer count below `2^64 - 1`, for which it ends. -/
def CreateLayers (mesh : Mesh) (nLayers : Nat) (thickness : ℚ) :
    Except Fault (Option Mesh) :=
  if nLayers < 1 ∨ thickness ≤ 0 ∨ mesh.getDimension ≠ 2 then
    pure none
  else do
    let nNodes := mesh.getNNodes
    let nElems := mesh.getNElements
    let new_nodes : List (Option Node) :=
      List.replicate ((nNodes + nLayers * nNodes) % SIZE_MOD) none
    let new_elems : List (Option Element) :=
      List.replicate ((nElems * nLayers) % SIZE_MOD) none
    let s ← forLoop (layerStep mesh nLayers thickness) (nLayers + 1) (new_nodes, new_elems)
    pure (some ⟨"NewMesh", s.1, s.2⟩)

/-- Modelled from the spec: what the raster loader `VtkRaster::loadDataFromASC`
(VtkRaster.h is not part of the sources) hands back on success: the elevation array and the
geo-referencing it writes into `x0`, `y0`, `width`, `height` and `delta`. -/
structure Raster where
  elevation : List ℚ
  x0 : ℚ
  y0 : ℚ
  width : Nat
  height : Nat
  delta : ℚ

/-- Running minima and maxima of `meshFitsImage`. -/
structure Bounds where
  xMin : ℚ
  yMin : ℚ
  xMax : ℚ
  yMax : ℚ

/-- Lines 231-240: the update of the running bounds with one node. -/
def updateBounds (pnt : Node) (b : Bounds) : Bounds :=
  let b := if b.xMin > pnt.x then { b with xMin := pnt.x }
    else if b.xMax < pnt.x then { b with xMax := pnt.x } else b
  if b.yMin > pnt.y then { b with yMin := pnt.y }
  else if b.yMax < pnt.y then { b with yMax := pnt.y } else b

/-- Lines 229-241: the body of the loop over the nodes in `meshFitsImage`. -/
def scanNode (nodes : List (Option Node)) (i : Nat) (b : Bounds) : Except Fault Bounds := do
  let pnt ← vecGet nodes i >>= deref
  pure (updateBounds pnt b)

/-- The function `MshLayerMapper::meshFitsImage` (lines 217-249). The loop over the nodes starts at
index 1; the minima start at `DBL_MAX` and the maxima at `DBL_MIN`. -/
def meshFitsImage (msh : Mesh) (xDim yDim : ℚ × ℚ) : Except Fault Bool := do
  let nNodes := msh.getNNodes
  let nodes := msh.nodes
  let b ← forRange (scanNode nodes) 1 nNodes ⟨DBL_MAX, DBL_MAX, DBL_MIN, DBL_MIN⟩
  if b.xMin < xDim.1 ∨ b.xMax > xDim.2 ∨ b.yMin < yDim.1 ∨ b.yMax > yDim.2 then
    pure false
  else
    pure true

/-- Modelled from the spec: `MathLib::MPhi2D` (MathTools.h is not part of the sources), the
four bilinear shape functions on the reference square. -/
def MPhi2D (xi eta : ℚ) : List ℚ :=
  [(1 + xi) * (1 + eta) / 4, (1 - xi) * (1 + eta) / 4,
   (1 - xi) * (1 - eta) / 4, (1 + xi) * (1 - eta) / 4]

/-- The conversion `static_cast<size_t>` of an integral `double`. -/
def toSizeT (v : Int) : Except Fault Nat :=
  if 0 ≤ v ∧ v < (SIZE_MOD : Int) then .ok v.toNat else .error .conversion

/-- The conversion of an integral `double` to the 32 bit `int`. -/
def toInt (v : Int) : Except Fault Int :=
  if -2147483648 ≤ v ∧ v < 2147483648 then .ok v else .error .conversion

/-- The conversion of an `int` to `size_t`. -/
def intToSizeT (v : Int) : Nat := (v % (SIZE_MOD : Int)).toNat

/-- Lines 158-160: the raster value of neighbour `j`, replaced by the value of the node's
own cell when it is the NoData value. -/
def neighbourValue (elevation : List ℚ) (width xIdx yIdx x_nb y_nb : Nat) (locZ0 : ℚ) :
    Except Fault ℚ := do
  let v ← vecGet elevation ((2 * ((yIdx + y_nb) * width + (xIdx + x_nb))) % SIZE_MOD)
  pure (if |v + 9999| < DBL_MIN then locZ0 else v)

/-- Lines 133-181: the body of the loop over the nodes of the target layer. The state is
the node vector of the mesh and `noData_nodes`. -/
def mapNode (r : Raster) (i : Nat) (s : List (Option Node) × List Nat) :
    Except Fault (List (Option Node) × List Nat) := do
  let nodes := s.1
  let noData_nodes := s.2
  let half_delta : ℚ := (1 / 2) * r.delta
  let coords ← vecGet nodes i >>= deref
  let xPos ← fdiv (coords.x - r.x0) r.delta
  let yPos ← fdiv (coords.y - r.y0) r.delta
  let xIdx ← toSizeT ⌊xPos⌋
  let yIdx ← toSizeT ⌊yPos⌋
  let xShift ← fdiv (xPos - xIdx - half_delta) half_delta
  let yShift ← fdiv (yPos - yIdx - half_delta) half_delta
  let xShiftIdx ← toInt (if xShift ≥ 0 then ⌈xShift⌉ else ⌊xShift⌋)
  let yShiftIdx ← toInt (if yShift ≥ 0 then ⌈yShift⌉ else ⌊yShift⌋)
  let locZ0 ← vecGet r.elevation ((2 * (yIdx * r.width + xIdx)) % SIZE_MOD)
  if |locZ0 + 9999| > DBL_MIN then
    let locZ1 ← neighbourValue r.elevation r.width xIdx yIdx (intToSizeT xShiftIdx) 0 locZ0
    let locZ2 ← neighbourValue r.elevation r.width xIdx yIdx (intToSizeT xShiftIdx)
      (intToSizeT yShiftIdx) locZ0
    let locZ3 ← neighbourValue r.elevation r.width xIdx yIdx 0 (intToSizeT yShiftIdx) locZ0
    let xi : ℚ := 1 - |xShift|
    let eta : ℚ := 1 - |xShift|
    let ome := MPhi2D xi eta
    let z : ℚ := (List.zipWith (fun o l => o * l) ome [locZ0, locZ1, locZ2, locZ3]).foldl
      (fun z t => z + t) 0
    let nodes ← vecSet nodes i (some (coords.updateCoordinates coords.x coords.y z))
    pure (nodes, noData_nodes)
  else
    let nodes ← vecSet nodes i (some (coords.updateCoordinates coords.x coords.y 0))
    pure (nodes, noData_nodes ++ [i])

/-- What a call of `LayerMapping` leaves behind: the returned `int`, the mesh object the
caller passed (with the coordinates the call wrote), whether the call deleted that object,
the mesh the local pointer `new_mesh` designates at the return, and `noData_nodes`. -/
structure MappingResult where
  code : Int
  mesh : Option Mesh
  deleted : Bool
  new_mesh : Option Mesh
  noData_nodes : List Nat

/-- Lines 122-208 of `LayerMapping`: the mapping proper, reached once the raster is loaded
and `meshFitsImage` has accepted the mesh. `removeMeshNodes` is the mesh editor
`MshEditor::removeMeshNodes` (MshEditor.h is not part of the sources). -/
def mapLayer (removeMeshNodes : Mesh → List Nat → Option Mesh) (mesh : Mesh) (r : Raster)
    (nLayers layer_id : Nat) (removeNoDataValues : Bool) : Except Fault MappingResult := do
  let nNodes := mesh.getNNodes
  let nNodesPerLayer ← sizeDiv nNodes ((nLayers + 1) % SIZE_MOD)
  let firstNode := (layer_id * nNodesPerLayer) % SIZE_MOD
  let lastNode := (firstNode + nNodesPerLayer) % SIZE_MOD
  let s ← forRange (mapNode r) firstNode lastNode (mesh.nodes, [])
  let mapped : Mesh := { mesh with nodes := s.1 }
  let noData_nodes := s.2
  if nLayers = 0 ∧ removeNoDataValues = true then
    if noData_nodes.length < ((nNodes : Int) - 2) % (SIZE_MOD : Int) then
      let red_mesh := removeMeshNodes mapped noData_nodes
      if mapped.getNElements = 0 then
        pure ⟨1, some mapped, true, red_mesh, noData_nodes⟩
      else
        pure ⟨1, some mapped, false, some mapped, noData_nodes⟩
    else
      pure ⟨1, some mapped, false, some mapped, noData_nodes⟩
  else
    pure ⟨1, some mapped, false, some mapped, noData_nodes⟩

/-- The function `MshLayerMapper::LayerMapping` (lines 90-215). `raster` is what
`VtkRaster::loadDataFromASC(rasterfile, ...)` returns, `none` being its null pointer. -/
def LayerMapping (removeMeshNodes : Mesh → List Nat → Option Mesh) (new_mesh : Option Mesh)
    (raster : Option Raster) (nLayers layer_id : Nat) (removeNoDataValues : Bool) :
    Except Fault MappingResult :=
  match new_mesh with
  | none => pure ⟨0, none, false, none, []⟩
  | some mesh =>
    if nLayers ≥ layer_id then
      match raster with
      | none => pure ⟨0, some mesh, false, some mesh, []⟩
      | some r => do
        let xDim : ℚ × ℚ := (r.x0, r.x0 + r.width * r.delta)
        let yDim : ℚ × ℚ := (r.y0, r.y0 + r.height * r.delta)
        let fits ← meshFitsImage mesh xDim yDim
        if !fits then
          pure ⟨0, some mesh, false, some mesh, []⟩
        else
          mapLayer removeMeshNodes mesh r nLayers layer_id removeNoDataValues
    else
      pure ⟨0, some mesh, false, some mesh, []⟩

/-- A valid input of `CreateLayers`: at least one layer, positive thickness, a well-formed
2D mesh, and an output node count that fits the `unsigned` node identifiers. -/
structure ValidInput (mesh : Mesh) (nLayers : Nat) (thickness : ℚ) : Prop where
  layers : 1 ≤ nLayers
  thick : 0 < thickness
  dim : mesh.getDimension = 2
  wellFormed : mesh.WellFormed
  fits : (nLayers + 1) * mesh.getNNodes < UINT_MOD

/-- The nodes (0,0,0), (1,0,0), (0,1,0) with identifiers 0, 1, 2. -/
def triNodes : List (Option Node) :=
  [some ⟨0, 0, 0, 0⟩, some ⟨1, 0, 0, 1⟩, some ⟨0, 1, 0, 2⟩]

/-- A surface mesh of one triangle over `triNodes`. -/
def triMesh : Mesh :=
  { name := "tri", nodes := triNodes, elems := [some ⟨.TRIANGLE, triNodes, 0⟩] }

/-- The raster of one cell of size 1 at the origin, with elevation 7. -/
def unitRaster : Raster :=
  { elevation := [7], x0 := 0, y0 := 0, width := 1, height := 1, delta := 1 }

/-- Two nodes, the first at x = 5, the second at the centre of the unit square. -/
def firstOutside : Mesh :=
  { name := "firstOutside", nodes := [some ⟨5, 1 / 2, 0, 0⟩, some ⟨1 / 2, 1 / 2, 0, 1⟩],
    elems := [] }

/-- Two nodes, the first at the centre of the unit square, the second at x = 5. -/
def secondOutside : Mesh :=
  { name := "secondOutside", nodes := [some ⟨1 / 2, 1 / 2, 0, 0⟩, some ⟨5, 1 / 2, 0, 1⟩],
    elems := [] }

/-- Three nodes, the first two at the centre of the unit square, the third at x = 5. -/
def thirdOutside : Mesh :=
  { name := "thirdOutside",
    nodes := [some ⟨1 / 2, 1 / 2, 0, 0⟩, some ⟨1 / 2, 1 / 2, 0, 1⟩, some ⟨5, 1 / 2, 0, 2⟩],
    elems := [] }

/-- Two nodes at (-3/2, -3/2), inside the square [-2, -1] x [-2, -1]. -/
def negativeMesh : Mesh :=
  { name := "negative", nodes := [some ⟨-3 / 2, -3 / 2, 0, 0⟩, some ⟨-3 / 2, -3 / 2, 0, 1⟩],
    elems := [] }

/-- A mesh editor that hands back the mesh it is given. -/
def keepMesh (m : Mesh) (_ : List Nat) : Option Mesh := some m

/-- Lines 135-146: where a node lies in the raster: the indices of its cell, the offsets
from the cell centre normalised by `delta / 2`, and the neighbour offsets derived from
them. -/
structure CellPos where
  xIdx : Nat
  yIdx : Nat
  xShift : ℚ
  yShift : ℚ
  xShiftIdx : Int
  yShiftIdx : Int

/-- Lines 135-146, the part of `mapNode` that computes the position of a node. The
quotient and the floor are exact; the code takes them in `double`, where a position just
below a cell boundary can round up into the next cell. -/
def locate (r : Raster) (coords : Node) : Except Fault CellPos := do
  let half_delta : ℚ := (1 / 2) * r.delta
  let xPos ← fdiv (coords.x - r.x0) r.delta
  let yPos ← fdiv (coords.y - r.y0) r.delta
  let xIdx ← toSizeT ⌊xPos⌋
  let yIdx ← toSizeT ⌊yPos⌋
  let xShift ← fdiv (xPos - xIdx - half_delta) half_delta
  let yShift ← fdiv (yPos - yIdx - half_delta) half_delta
  let xShiftIdx ← toInt (if xShift ≥ 0 then ⌈xShift⌉ else ⌊xShift⌋)
  let yShiftIdx ← toInt (if yShift ≥ 0 then ⌈yShift⌉ else ⌊yShift⌋)
  pure ⟨xIdx, yIdx, xShift, yShift, xShiftIdx, yShiftIdx⟩

/-- Lines 149-158: the index of `elevation` read for stencil entry `j`, with
`x_nb = {0, xShiftIdx, xShiftIdx, 0}` and `y_nb = {0, 0, yShiftIdx, yShiftIdx}`. -/
def stencilIndex (r : Raster) (p : CellPos) (j : Nat) : Nat :=
  let x_nb := if j = 1 ∨ j = 2 then intToSizeT p.xShiftIdx else 0
  let y_nb := if j = 2 ∨ j = 3 then intToSizeT p.yShiftIdx else 0
  (2 * ((p.yIdx + y_nb) * r.width + (p.xIdx + x_nb))) % SIZE_MOD

/-- Lines 159-160: a neighbour value that is NoData gives way to the own-cell value. -/
def substituteNoData (locZ0 v : ℚ) : ℚ :=
  if |v + 9999| < DBL_MIN then locZ0 else v

/-- Lines 163-170: the weighted sum of the four stencil values; both arguments of
`MPhi2D` are `1 - |xShift|`. -/
def interpolate (xShift : ℚ) (locZ : List ℚ) : ℚ :=
  let xi : ℚ := 1 - |xShift|
  let eta : ℚ := 1 - |xShift|
  (List.zipWith (fun o l => o * l) (MPhi2D xi eta) locZ).foldl (fun z t => z + t) 0

/-- What one iteration of the node loop (lines 133-181) does with a node `coords`: `out`
is the node it leaves, `recorded` tells whether its index is pushed to `noData_nodes`. -/
def NodeOutcome (r : Raster) (coords out : Node) (recorded : Bool) : Prop :=
  ∃ p locZ0, locate r coords = .ok p ∧
    r.elevation.get? (stencilIndex r p 0) = some locZ0 ∧
    ((¬ |locZ0 + 9999| > DBL_MIN ∧ recorded = true ∧
        out = coords.updateCoordinates coords.x coords.y 0) ∨
     (|locZ0 + 9999| > DBL_MIN ∧ recorded = false ∧
        ∃ v1 v2 v3, r.elevation.get? (stencilIndex r p 1) = some v1 ∧
          r.elevation.get? (stencilIndex r p 2) = some v2 ∧
          r.elevation.get? (stencilIndex r p 3) = some v3 ∧
          out = coords.updateCoordinates coords.x coords.y
            (interpolate p.xShift [locZ0, substituteNoData locZ0 v1,
              substituteNoData locZ0 v2, substituteNoData locZ0 v3])))

/-- Line 123: `nNodesPerLayer`. -/
def nodesPerLayer (nNodes nLayers : Nat) : Nat := nNodes / ((nLayers + 1) % SIZE_MOD)

/-- Line 125: `firstNode`. -/
def firstNode (nNodes nLayers layer_id : Nat) : Nat :=
  (layer_id * nodesPerLayer nNodes nLayers) % SIZE_MOD

/-- Line 126: `lastNode`. -/
def lastNode (nNodes nLayers layer_id : Nat) : Nat :=
  (firstNode nNodes nLayers layer_id + nodesPerLayer nNodes nLayers) % SIZE_MOD

/-- The weighted sum as the claim words it, to be compared with `interpolate`: the shape
functions are evaluated at `(1 - |xShift|, 1 - |yShift|)`. -/
def interpolateClaimed (xShift yShift : ℚ) (locZ : List ℚ) : ℚ :=
  (List.zipWith (fun o l => o * l) (MPhi2D (1 - |xShift|) (1 - |yShift|)) locZ).foldl
    (fun z t => z + t) 0

/-- A raster of 2 x 2 cells of size 1 at the origin whose array holds two entries per cell:
the cell values 1, 2, 3, 4 stand at the even indices. -/
def grid2 : Raster :=
  { elevation := [1, 0, 2, 0, 3, 0, 4, 0], x0 := 0, y0 := 0, width := 2, height := 2,
    delta := 1 }

/-- Three nodes at the centres of the cells (0,0), (1,0) and (0,1) of `grid2`. -/
def centreNodes : List (Option Node) :=
  [some ⟨1 / 2, 1 / 2, 0, 0⟩, some ⟨3 / 2, 1 / 2, 0, 1⟩, some ⟨1 / 2, 3 / 2, 0, 2⟩]

/-- The nodes `centreNodes` with the values 1, 2, 3 of their cells of `grid2` as z. -/
def mappedCentres : List (Option Node) :=
  [some ⟨1 / 2, 1 / 2, 1, 0⟩, some ⟨3 / 2, 1 / 2, 2, 1⟩, some ⟨1 / 2, 3 / 2, 3, 2⟩]

/-- A mesh of one triangle over `centreNodes`. -/
def cellTri : Mesh :=
  { name := "cellTri", nodes := centreNodes, elems := [some ⟨.TRIANGLE, centreNodes, 0⟩] }

/-- A mesh of the nodes `centreNodes` without any element. -/
def cellPoints : Mesh :=
  { name := "cellPoints", nodes := centreNodes, elems := [] }

/-- A mesh editor that hands back a copy of the mesh under the name "reduced". -/
def reducedCopy (m : Mesh) (_ : List Nat) : Option Mesh := some { m with name := "reduced" }

/-- A raster of 4 x 1 cells of size 1/2 at the origin, two array entries per cell: the
cell values are 0, 0, 0, 4. -/
def fineRaster : Raster :=
  { elevation := [0, 0, 0, 0, 0, 0, 4, 0], x0 := 0, y0 := 0, width := 4, height := 1,
    delta := 1 / 2 }

/-- One node at (7/16, 1/8), inside the first cell of `fineRaster`. -/
def fineMesh : Mesh :=
  { name := "fine", nodes := [some ⟨7 / 16, 1 / 8, 0, 0⟩], elems := [] }

/-- Two nodes in the cell (0,0) of `grid2` with the same x: the cell centre (1/2, 1/2) and
(1/2, 3/4). -/
def offCentre : Mesh :=
  { name := "offCentre", nodes := [some ⟨1 / 2, 1 / 2, 0, 0⟩, some ⟨1 / 2, 3 / 4, 0, 1⟩],
    elems := [] }

/-- Two nodes in the cell (0,0) of `grid2`: the cell centre (1/2, 1/2) and (1/4, 1/2),
left of the centre. -/
def leftHalf : Mesh :=
  { name := "leftHalf", nodes := [some ⟨1 / 2, 1 / 2, 0, 0⟩, some ⟨1 / 4, 1 / 2, 0, 1⟩],
    elems := [] }

/-- Lines 184-208: the NoData removal step and the return, given the mesh as the node loop
left it (`mapped`) and the node count `nNodes` taken before the loop. The result records
whether the passed mesh was deleted and which mesh the local pointer designates. -/
def removalStep (removeMeshNodes : Mesh → List Nat → Option Mesh) (mapped : Mesh)
    (nNodes nLayers : Nat) (removeNoDataValues : Bool) (noData_nodes : List Nat) :
    MappingResult :=
  if nLayers = 0 ∧ removeNoDataValues = true then
    if noData_nodes.length < ((nNodes : Int) - 2) % (SIZE_MOD : Int) then
      if mapped.getNElements = 0 then
        ⟨1, some mapped, true, removeMeshNodes mapped noData_nodes, noData_nodes⟩
      else
        ⟨1, some mapped, false, some mapped, noData_nodes⟩
    else
      ⟨1, some mapped, false, some mapped, noData_nodes⟩
  else
    ⟨1, some mapped, false, some mapped, noData_nodes⟩

end MshLayerMapper

namespace MshLayerMapper

open MeshLib

/-- Invariant rule for `forLoop`: a property that holds at the start and that every
iteration both preserves and completes without fault holds at the end, and the loop returns. -/
theorem forLoop_inv {σ : Type} (P : Nat → σ → Prop) (body : Nat → σ → Except Fault σ)
    (n : Nat) (s : σ) (h0 : P 0 s)
    (hstep : ∀ i t, i < n → P i t → ∃ t', body i t = .ok t' ∧ P (i + 1) t') :
    ∃ t, forLoop body n s = .ok t ∧ P n t := by
  induction n with
  | zero => exact ⟨s, rfl, h0⟩
  | succ k ih =>
    obtain ⟨t, ht, hP⟩ := ih (fun i t hi => hstep i t (Nat.lt_succ_of_lt hi))
    obtain ⟨t', ht', hP'⟩ := hstep k t (Nat.lt_succ_self k) hP
    refine ⟨t', ?_, hP'⟩
    simp only [forLoop, ht, bind, Except.bind]
    exact ht'

/-- A read inside the extent of a vector succeeds. -/
theorem vecGet_ok {α : Type} (v : List α) (i : Nat) (h : i < v.length) :
    vecGet v i = .ok (v.get ⟨i, h⟩) := by
  simp [vecGet, List.get?_eq_getElem?, List.getElem?_eq_getElem h]

/-- The node loop of one layer returns when no source node is null and the target vector
has room for `nNodes` entries; it keeps the length of the target vector. -/
theorem copyNodes_ok (nodes : List (Option Node)) (node_offset : Nat) (z_offset : ℚ)
    (new_nodes : List (Option Node)) (hnull : ∀ p ∈ nodes, p ≠ none)
    (hlen : nodes.length ≤ new_nodes.length) :
    ∃ nn, copyNodes nodes nodes.length node_offset z_offset new_nodes = .ok nn ∧
      nn.length = new_nodes.length := by
  unfold copyNodes
  refine forLoop_inv (fun _ (nn : List (Option Node)) => nn.length = new_nodes.length)
    _ _ _ rfl ?_
  · intro i t hi ht
    dsimp only at ht ⊢
    have hmem : nodes.get ⟨i, hi⟩ ∈ nodes := List.get_mem _ _ _
    have hne := hnull _ hmem
    obtain ⟨c, hc⟩ := Option.ne_none_iff_exists'.mp hne
    have hit : i < t.length := by omega
    simp only [vecGet_ok nodes i hi, hc, bind, Except.bind, deref, vecSet, if_pos hit]
    exact ⟨_, rfl, by simp [ht]⟩

/-- The node array of an extruded element is built without fault when the element is well
formed and both reads stay inside `new_nodes`. -/
theorem extrudedNodes_ok (e : Element) (new_nodes : List (Option Node)) (nNodes node_offset : Nat)
    (hwf : e.WellFormed nNodes)
    (hsize : node_offset + 2 * nNodes ≤ new_nodes.length) :
    ∃ en, extrudedNodes e new_nodes nNodes node_offset = .ok en := by
  unfold extrudedNodes
  obtain ⟨t, ht, -⟩ := forLoop_inv (fun _ (en : List (Option Node)) => en.length = 2 * e.getNNodes)
    (fun j e_nodes => do
      let nd ← e.getNode j
      let node_id := (nd.id + node_offset) % UINT_MOD
      let lower ← vecGet new_nodes node_id
      let e_nodes ← vecSet e_nodes j lower
      let upper ← vecGet new_nodes ((node_id + nNodes) % SIZE_MOD)
      vecSet e_nodes (j + e.getNNodes) upper)
    e.getNNodes (List.replicate (2 * e.getNNodes) none) (by simp) (by
      intro j t hj ht
      have hj' : j < e.nodes.length := by rw [hwf.1]; exact hj
      obtain ⟨n, hn, hid⟩ := hwf.2 _ (List.get_mem _ _ hj')
      have h1 : (n.id + node_offset) % UINT_MOD < new_nodes.length := by
        have := Nat.mod_le (n.id + node_offset) UINT_MOD
        omega
      have h2 : ((n.id + node_offset) % UINT_MOD + nNodes) % SIZE_MOD < new_nodes.length := by
        have := Nat.mod_le (n.id + node_offset) UINT_MOD
        have := Nat.mod_le ((n.id + node_offset) % UINT_MOD + nNodes) SIZE_MOD
        omega
      dsimp only at ht ⊢
      have h3 : j < t.length := by omega
      have h4 : j + e.getNNodes < (t.set j (new_nodes.get ⟨_, h1⟩)).length := by
        rw [List.length_set]; omega
      simp only [Element.getNode, vecGet_ok e.nodes j hj', hn, bind, Except.bind, deref,
        vecGet_ok new_nodes _ h1, vecGet_ok new_nodes _ h2, vecSet, if_pos h3, if_pos h4]
      exact ⟨_, rfl, by simp [ht]⟩)
  exact ⟨t, ht⟩

/-- Tags of a concatenation. -/
theorem tags_append (a b : List (Option Element)) : tags (a ++ b) = tags a ++ tags b := by
  simp [tags]

/-- The count of 2D elements is additive. -/
theorem count2D_append (a b : List (Option Element)) : count2D (a ++ b) = count2D a + count2D b := by
  simp [count2D]

/-- Tags of a one-element sequence. -/
theorem tags_single (e : Element) : tags [some e] = [e.value] := by
  simp [tags]

/-- The count of 2D elements of a one-element sequence. -/
theorem count2D_single (e : Element) :
    count2D [some e] = if e.getDimension = 2 then 1 else 0 := by
  by_cases h : e.getDimension = 2 <;> simp [count2D, h]

/-- The element loop of one layer returns and appends one element with tag `mat_id`
for every 2D source element. -/
theorem extrudeElems_ok (elems : List (Option Element)) (nNodes node_offset mat_id : Nat)
    (new_nodes : List (Option Node)) (new_elems : List (Option Element))
    (hwf : ∀ p ∈ elems, ∃ e, p = some e ∧ e.WellFormed nNodes)
    (hsize : node_offset + 2 * nNodes ≤ new_nodes.length) :
    ∃ ne, extrudeElems elems elems.length nNodes node_offset mat_id new_nodes new_elems = .ok ne ∧
      tags ne = tags new_elems ++ List.replicate (count2D elems) mat_id := by
  unfold extrudeElems
  obtain ⟨t, ht, hP⟩ := forLoop_inv
    (fun i (ne : List (Option Element)) =>
      tags ne = tags new_elems ++ List.replicate (count2D (elems.take i)) mat_id)
    (fun i new_elems => do
      let sfc_elem ← vecGet elems i >>= deref
      if sfc_elem.getDimension = 2 then
        let e_nodes ← extrudedNodes sfc_elem new_nodes nNodes node_offset
        if sfc_elem.getType = .TRIANGLE then
          pure (new_elems ++ [some (Prism e_nodes mat_id)])
        else if sfc_elem.getType = .QUAD then
          pure (new_elems ++ [some (Hex e_nodes mat_id)])
        else
          pure new_elems
      else
        pure new_elems)
    elems.length new_elems (by simp [count2D]) (by
      intro i t hi ht
      dsimp only at ht ⊢
      obtain ⟨e, he, hewf⟩ := hwf _ (List.get_mem _ _ hi)
      obtain ⟨en, hen⟩ := extrudedNodes_ok e new_nodes nNodes node_offset hewf hsize
      have htake : elems.take (i + 1) = elems.take i ++ [some e] := by
        rw [List.take_succ, List.getElem?_eq_getElem hi]
        have : elems[i] = some e := he
        simp [this]
      rw [htake, count2D_append]
      simp only [vecGet_ok elems i hi, he, bind, Except.bind, deref, hen, pure, Except.pure,
        Element.getType]
      rw [count2D_single]
      cases hty : e.type <;>
        simp [Element.getDimension, hty, tags_append, tags_single, ht, Prism, Hex,
          List.replicate_succ'])
  refine ⟨t, ht, ?_⟩
  simpa using hP

/-- The statement `node_offset -= nNodes` on the `unsigned` offset never exceeds the exact
difference. -/
theorem node_offset_le (a N : Nat) (h : N ≤ a) :
    ((((a % UINT_MOD : Nat) : Int) - (N : Int)) % ((UINT_MOD : Nat) : Int)).toNat ≤ a - N := by
  unfold UINT_MOD
  omega

/-- One iteration of the layer loop returns, keeps the length of the node vector and, for
`layer_id > 0`, appends `count2D` elements tagged `(nLayers - layer_id) % 2^32`. -/
theorem layerStep_ok (mesh : Mesh) (nLayers : Nat) (thickness : ℚ) (layer_id : Nat)
    (s : List (Option Node) × List (Option Element)) (hwf : mesh.WellFormed)
    (hlayer : layer_id ≤ nLayers) (hlen : s.1.length = (nLayers + 1) * mesh.getNNodes) :
    ∃ s', layerStep mesh nLayers thickness layer_id s = .ok s' ∧ s'.1.length = s.1.length ∧
      tags s'.2 = tags s.2 ++
        (if layer_id > 0 then
          List.replicate (count2D mesh.elems) ((nLayers - layer_id) % UINT_MOD) else []) := by
  have hN : mesh.nodes.length ≤ s.1.length := by
    rw [hlen, Mesh.getNNodes, Nat.add_mul]; omega
  obtain ⟨nn, hnn, hnnlen⟩ := copyNodes_ok mesh.nodes
    ((mesh.getNNodes * layer_id) % UINT_MOD) ((layer_id : ℚ) * thickness) s.1 hwf.1 hN
  unfold layerStep
  simp only [Mesh.getNNodes] at hnn ⊢
  simp only [hnn, bind, Except.bind, pure, Except.pure]
  by_cases hpos : layer_id > 0
  · have h1 : mesh.nodes.length ≤ mesh.nodes.length * layer_id := Nat.le_mul_of_pos_right _ hpos
    have h2 : mesh.nodes.length * layer_id ≤ mesh.nodes.length * nLayers :=
      Nat.mul_le_mul_left _ hlayer
    have h3 := node_offset_le (mesh.nodes.length * layer_id) mesh.nodes.length h1
    have h4 : (nLayers + 1) * mesh.nodes.length = mesh.nodes.length * nLayers + mesh.nodes.length := by
      ring
    have hsize : ((((mesh.nodes.length * layer_id % UINT_MOD : Nat) : Int) -
        (mesh.nodes.length : Int)) % ((UINT_MOD : Nat) : Int)).toNat + 2 * mesh.nodes.length
        ≤ nn.length := by
      rw [hnnlen, hlen, Mesh.getNNodes, h4]; omega
    obtain ⟨ne, hne, htags⟩ := extrudeElems_ok mesh.elems mesh.nodes.length _
      ((nLayers - layer_id) % UINT_MOD) nn s.2 hwf.2 hsize
    simp only [if_pos hpos, Mesh.getNElements, hne]
    exact ⟨_, rfl, hnnlen, htags⟩
  · simp only [if_neg hpos]
    exact ⟨_, rfl, hnnlen, by simp⟩

/-- On a well-formed 2D mesh with `nLayers >= 1`, `thickness > 0` and an output node count
that fits `size_t`, `CreateLayers` returns a mesh with `(nLayers + 1) * nNodes` node entries
whose element tags are, layer by layer, `count2D` copies of `(nLayers - layer) % 2^32`. -/
theorem CreateLayers_ok (mesh : Mesh) (nLayers : Nat) (thickness : ℚ)
    (hL : 1 ≤ nLayers) (hT : 0 < thickness) (hdim : mesh.getDimension = 2)
    (hwf : mesh.WellFormed) (hfit : (nLayers + 1) * mesh.getNNodes < SIZE_MOD) :
    ∃ out, CreateLayers mesh nLayers thickness = .ok (some out) ∧
      out.nodes.length = (nLayers + 1) * mesh.getNNodes ∧
      tags out.elems = (List.range' 1 nLayers).flatMap
        (fun layer => List.replicate (count2D mesh.elems) ((nLayers - layer) % UINT_MOD)) := by
  have hcond : ¬(nLayers < 1 ∨ thickness ≤ 0 ∨ mesh.getDimension ≠ 2) := by
    simp only [hdim, ne_eq, not_true_eq_false, or_false, not_or, not_lt, not_le]
    exact ⟨hL, hT⟩
  have hsz : (mesh.getNNodes + nLayers * mesh.getNNodes) % SIZE_MOD
      = (nLayers + 1) * mesh.getNNodes := by
    rw [Nat.add_mul, Nat.one_mul, Nat.add_comm, Nat.mod_eq_of_lt]
    rw [Nat.add_mul, Nat.one_mul] at hfit
    exact hfit
  obtain ⟨t, ht, hlen, htags⟩ := forLoop_inv
    (fun i (s : List (Option Node) × List (Option Element)) =>
      s.1.length = (nLayers + 1) * mesh.getNNodes ∧
      tags s.2 = (List.range' 1 (i - 1)).flatMap
        (fun layer => List.replicate (count2D mesh.elems) ((nLayers - layer) % UINT_MOD)))
    (layerStep mesh nLayers thickness) (nLayers + 1)
    (List.replicate ((mesh.getNNodes + nLayers * mesh.getNNodes) % SIZE_MOD) none,
      List.replicate ((mesh.getNElements * nLayers) % SIZE_MOD) none)
    (by simp [hsz, tags]) (by
      intro i s hi hs
      obtain ⟨hs1, hs2⟩ := hs
      obtain ⟨s', hs', hlen', htags'⟩ := layerStep_ok mesh nLayers thickness i s hwf
        (Nat.lt_succ_iff.mp hi) hs1
      refine ⟨s', hs', by rw [hlen', hs1], ?_⟩
      rw [htags', hs2]
      cases i with
      | zero => simp
      | succ k =>
        simp only [Nat.add_sub_cancel, gt_iff_lt, Nat.zero_lt_succ, if_true]
        rw [List.range'_concat, List.flatMap_append]
        simp [Nat.add_comm])
  refine ⟨⟨"NewMesh", t.1, t.2⟩, ?_, hlen, ?_⟩
  · unfold CreateLayers
    rw [if_neg hcond]
    simp only [ht, bind, Except.bind, pure, Except.pure]
  · simpa using htags

/-- A mesh of positive dimension has an element. -/
theorem getDimension_pos_exists (elems : List (Option Element))
    (h : 0 < (elems.filterMap id).foldr (fun e d => max e.getDimension d) 0) :
    ∃ e, some e ∈ elems := by
  cases hl : elems.filterMap id with
  | nil => rw [hl] at h; simp at h
  | cons e t =>
    have : e ∈ elems.filterMap id := by rw [hl]; exact List.mem_cons_self _ _
    rw [List.mem_filterMap] at this
    obtain ⟨p, hp, hpe⟩ := this
    have hpe' : p = some e := hpe
    exact ⟨e, hpe' ▸ hp⟩

/-- A well-formed mesh of dimension 2 has at least one node. -/
theorem nodes_pos_of_valid (mesh : Mesh) (hdim : mesh.getDimension = 2)
    (hwf : mesh.WellFormed) : 0 < mesh.getNNodes := by
  obtain ⟨e, he⟩ := getDimension_pos_exists mesh.elems (by
    have : mesh.getDimension = 2 := hdim
    unfold Mesh.getDimension at this
    omega)
  obtain ⟨e', he', hlen, hids⟩ := hwf.2 _ he
  cases he'
  have hpos : 0 < e.nodes.length := by
    rw [hlen]; unfold Element.getNNodes; cases e.type <;> simp
  obtain ⟨n, -, hn⟩ := hids _ (List.get_mem e.nodes 0 hpos)
  omega

/-- The one-triangle mesh has dimension 2. -/
theorem triMesh_dim : triMesh.getDimension = 2 := by decide

/-- The one-triangle mesh is well formed. -/
theorem triMesh_wellFormed : triMesh.WellFormed := by
  simp [Mesh.WellFormed, Element.WellFormed, triMesh, triNodes, Mesh.getNNodes,
    Element.getNNodes]

/-- The one-triangle mesh with unit thickness is a valid input for every small layer count. -/
theorem triMesh_valid (nLayers : Nat) (h1 : 1 ≤ nLayers) (h2 : nLayers < 1000) :
    ValidInput triMesh nLayers 1 where
  layers := h1
  thick := one_pos
  dim := triMesh_dim
  wellFormed := triMesh_wellFormed
  fits := by
    have : triMesh.getNNodes = 3 := rfl
    rw [this]; unfold UINT_MOD; omega

/-- The run of `CreateLayers` on the one-triangle mesh with one layer of thickness 1. -/
theorem CreateLayers_triMesh : CreateLayers triMesh 1 1 = .ok (some ⟨"NewMesh",
    [some ⟨0, 0, -1, 3⟩, some ⟨1, 0, -1, 4⟩, some ⟨0, 1, -1, 5⟩, none, none, none],
    [none, some ⟨.PRISM,
      [some ⟨0, 0, -1, 3⟩, some ⟨1, 0, -1, 4⟩, some ⟨0, 1, -1, 5⟩, none, none, none], 0⟩]⟩) := by
  unfold CreateLayers
  rw [if_neg (by simp [triMesh_dim])]
  simp [forLoop, layerStep, copyNodes, extrudeElems, extrudedNodes,
    triMesh, triNodes, Mesh.getNNodes, Mesh.getNElements, SIZE_MOD, UINT_MOD, vecGet, vecSet,
    deref, Element.getDimension, Element.getNNodes, Element.getType, Element.getNode, Prism,
    Hex, bind, Except.bind, pure, Except.pure]

/-- C1 (code defect): on the one-triangle mesh (N = 3) with one layer of thickness 1 the
returned node sequence has the (L+1)*N = 6 entries the claim counts, but only the first
three are nodes: the copies of every layer are written to the positions 0..N-1, and the
positions 3, 4, 5 stay null. -/
theorem CreateLayers_leaves_nodes_unset :
    ∃ out, CreateLayers triMesh 1 1 = .ok (some out) ∧ out.nodes.length = 6 ∧
      out.nodes.drop 3 = [none, none, none] :=
  ⟨_, CreateLayers_triMesh, rfl, rfl⟩

/-- C2 (code defect): on the one-triangle mesh (E = 1) with one layer the returned element
sequence has 2 entries and not L*E = 1: the sequence is created with L*E null entries and
the prism is appended behind them, so its first entry is null. -/
theorem CreateLayers_element_count_doubled :
    ∃ out, CreateLayers triMesh 1 1 = .ok (some out) ∧ out.elems.length = 2 ∧
      out.elems.head? = some none ∧ out.elems.length ≠ 1 * triMesh.getNElements :=
  ⟨_, CreateLayers_triMesh, rfl, rfl, by decide⟩

/-- C3 (code defect): on the one-triangle mesh with one layer of thickness 1 the output
position 0*N + 0 holds the layer 1 copy of node 0 (z = -1, identifier 3) instead of its
layer 0 copy (z = 0, identifier 0), and the output position 1*N + 0 = 3 holds no node. -/
theorem CreateLayers_node_positions :
    ∃ out, CreateLayers triMesh 1 1 = .ok (some out) ∧
      out.nodes.get? (0 * triMesh.getNNodes + 0) = some (some ⟨0, 0, -1, 3⟩) ∧
      out.nodes.get? (1 * triMesh.getNNodes + 0) = some none :=
  ⟨_, CreateLayers_triMesh, rfl, rfl⟩

/-- C4 (code defect): on the one-triangle mesh (node identifiers equal to positions) with
one layer of thickness 1 the only element of the output is a prism whose nodes 0..2 are the
layer 1 copies of the triangle's nodes and whose nodes 3..5 are null; the claim asks for the
layer 0 copies followed by the layer 1 copies. -/
theorem CreateLayers_prism_nodes :
    ∃ out, CreateLayers triMesh 1 1 = .ok (some out) ∧
      out.elems.filterMap id = [⟨.PRISM,
        [some ⟨0, 0, -1, 3⟩, some ⟨1, 0, -1, 4⟩, some ⟨0, 1, -1, 5⟩, none, none, none], 0⟩] :=
  ⟨_, CreateLayers_triMesh, rfl⟩

/-- C5: for every valid input of `CreateLayers` a mesh is returned, and the material tags
of its elements, in the order in which they were built, are `count2D` copies of `L - 1`
(the elements built for layer 1), then `count2D` copies of `L - 2` (layer 2), and so on
down to `count2D` copies of `0` (layer `L`): every element built for layer `layer` carries
the tag `L - layer`, and the tag strictly decreases from one layer to the next deeper one. -/
theorem CreateLayers_material_tags (mesh : Mesh) (nLayers : Nat) (thickness : ℚ)
    (h : ValidInput mesh nLayers thickness) :
    ∃ out, CreateLayers mesh nLayers thickness = .ok (some out) ∧
      tags out.elems = (List.range' 1 nLayers).flatMap
        (fun layer => List.replicate (count2D mesh.elems) (nLayers - layer)) ∧
      ∀ layer layer', 1 ≤ layer → layer < layer' → layer' ≤ nLayers →
        nLayers - layer' < nLayers - layer := by
  have hN := nodes_pos_of_valid mesh h.dim h.wellFormed
  have hfit := h.fits
  have hL : nLayers < UINT_MOD := by
    have : (nLayers + 1) * 1 ≤ (nLayers + 1) * mesh.getNNodes := Nat.mul_le_mul_left _ hN
    omega
  obtain ⟨out, hout, -, htags⟩ := CreateLayers_ok mesh nLayers thickness h.layers h.thick
    h.dim h.wellFormed (by unfold SIZE_MOD; unfold UINT_MOD at hfit; omega)
  refine ⟨out, hout, ?_, fun a b _ hab hb => by omega⟩
  rw [htags]
  congr 1
  funext layer
  rw [Nat.mod_eq_of_lt (by omega)]

/-- Instance of the tag theorem on the one-triangle mesh with two layers. -/
theorem CreateLayers_material_tags_witness :
    ValidInput triMesh 2 1 ∧
    ∃ out, CreateLayers triMesh 2 1 = .ok (some out) ∧
      tags out.elems = (List.range' 1 2).flatMap
        (fun layer => List.replicate (count2D triMesh.elems) (2 - layer)) :=
  ⟨triMesh_valid 2 (by decide) (by decide),
    (CreateLayers_material_tags triMesh 2 1 (triMesh_valid 2 (by decide) (by decide))).imp
      (fun _ h => ⟨h.1, h.2.1⟩)⟩

/-- C6: `CreateLayers` returns the null result exactly when `nLayers < 1` or
`thickness <= 0` or the dimension of the mesh is not 2; on every other input (a well-formed
mesh whose output node count fits `size_t`) it returns a mesh. -/
theorem CreateLayers_null_iff (mesh : Mesh) (nLayers : Nat) (thickness : ℚ) :
    (CreateLayers mesh nLayers thickness = .ok none ↔
      (nLayers < 1 ∨ thickness ≤ 0 ∨ mesh.getDimension ≠ 2)) ∧
    (¬(nLayers < 1 ∨ thickness ≤ 0 ∨ mesh.getDimension ≠ 2) → mesh.WellFormed →
      (nLayers + 1) * mesh.getNNodes < SIZE_MOD →
      ∃ out, CreateLayers mesh nLayers thickness = .ok (some out)) := by
  constructor
  · constructor
    · intro h
      by_contra hc
      unfold CreateLayers at h
      rw [if_neg hc] at h
      simp only [bind, Except.bind, pure, Except.pure] at h
      split at h <;> simp at h
    · intro hc
      unfold CreateLayers
      rw [if_pos hc]
      rfl
  · intro hc hwf hfit
    simp only [not_or, not_lt, not_le, ne_eq, not_not] at hc
    obtain ⟨out, hout, -⟩ := CreateLayers_ok mesh nLayers thickness hc.1 hc.2.1 hc.2.2 hwf hfit
    exact ⟨out, hout⟩

/-- Instance of the null-result theorem on the one-triangle mesh with one layer. -/
theorem CreateLayers_null_iff_witness :
    ¬(1 < 1 ∨ (1 : ℚ) ≤ 0 ∨ triMesh.getDimension ≠ 2) ∧ triMesh.WellFormed ∧
    (1 + 1) * triMesh.getNNodes < SIZE_MOD ∧
    ∃ out, CreateLayers triMesh 1 1 = .ok (some out) :=
  have h1 : ¬(1 < 1 ∨ (1 : ℚ) ≤ 0 ∨ triMesh.getDimension ≠ 2) := by
    simp [triMesh_dim]
  have h3 : (1 + 1) * triMesh.getNNodes < SIZE_MOD := by
    have : triMesh.getNNodes = 3 := rfl
    rw [this]; unfold SIZE_MOD; omega
  ⟨h1, triMesh_wellFormed, h3, (CreateLayers_null_iff triMesh 1 1).2 h1 triMesh_wellFormed h3⟩

/-- The constant `DBL_MIN` is positive. -/
theorem DBL_MIN_pos : 0 < DBL_MIN := by
  unfold DBL_MIN; positivity

/-- The constant `DBL_MIN` is below 1. -/
theorem DBL_MIN_lt_one : DBL_MIN < 1 := by
  unfold DBL_MIN
  rw [div_lt_one (by positivity)]
  exact one_lt_pow₀ (by norm_num) (by norm_num)

/-- The constant `DBL_MIN` is below 1/2. -/
theorem DBL_MIN_lt_half : DBL_MIN < 1 / 2 := by
  unfold DBL_MIN
  norm_num

/-- The constant `DBL_MAX` exceeds 5. -/
theorem five_lt_DBL_MAX : 5 < DBL_MAX := by
  unfold DBL_MAX
  norm_num

/-- A range of one index runs the body once. -/
theorem forRange_one {σ : Type} (body : Nat → σ → Except Fault σ) (first : Nat) (s : σ) :
    forRange body first (first + 1) s = body first s := by
  simp only [forRange, Nat.add_sub_cancel_left, forLoop, bind, Except.bind, Nat.add_zero]

/-- A range of two indices runs the body twice. -/
theorem forRange_two {σ : Type} (body : Nat → σ → Except Fault σ) (first : Nat) (s : σ) :
    forRange body first (first + 2) s = body first s >>= body (first + 1) := by
  simp only [forRange, Nat.add_sub_cancel_left, forLoop, bind, Except.bind, Nat.add_zero]

/-- The result of `meshFitsImage` in terms of the bounds its loop computes. -/
theorem meshFitsImage_eq (msh : Mesh) (xDim yDim : ℚ × ℚ) (b : Bounds)
    (hb : forRange (scanNode msh.nodes) 1 msh.getNNodes ⟨DBL_MAX, DBL_MAX, DBL_MIN, DBL_MIN⟩
      = .ok b) :
    meshFitsImage msh xDim yDim =
      .ok (if b.xMin < xDim.1 ∨ b.xMax > xDim.2 ∨ b.yMin < yDim.1 ∨ b.yMax > yDim.2
        then false else true) := by
  unfold meshFitsImage
  simp only [hb, bind, Except.bind, pure, Except.pure]
  split <;> rfl

/-- The loop body of `meshFitsImage` at a node that is present. -/
theorem scanNode_eq (nodes : List (Option Node)) (i : Nat) (b : Bounds) (pnt : Node)
    (h : nodes.get? i = some (some pnt)) : scanNode nodes i b = .ok (updateBounds pnt b) := by
  simp only [scanNode, vecGet, h, bind, Except.bind, deref, pure, Except.pure]

/-- The first node the loop visits sets both minima and leaves both maxima at `DBL_MIN`. -/
theorem updateBounds_first (pnt : Node) (hx : pnt.x < DBL_MAX) (hy : pnt.y < DBL_MAX) :
    updateBounds pnt ⟨DBL_MAX, DBL_MAX, DBL_MIN, DBL_MIN⟩ = ⟨pnt.x, pnt.y, DBL_MIN, DBL_MIN⟩ := by
  simp only [updateBounds, gt_iff_lt, if_pos hx, if_pos hy]

/-- The check accepts `firstOutside` for the unit square. -/
theorem meshFitsImage_firstOutside : meshFitsImage firstOutside (0, 1) (0, 1) = .ok true := by
  have h1 := DBL_MIN_lt_one
  have h2 := five_lt_DBL_MAX
  have hb : forRange (scanNode firstOutside.nodes) 1 firstOutside.getNNodes
      ⟨DBL_MAX, DBL_MAX, DBL_MIN, DBL_MIN⟩ = .ok ⟨1 / 2, 1 / 2, DBL_MIN, DBL_MIN⟩ := by
    have : firstOutside.getNNodes = 1 + 1 := rfl
    rw [this, forRange_one, scanNode_eq firstOutside.nodes 1 _ ⟨1 / 2, 1 / 2, 0, 1⟩ rfl,
      updateBounds_first]
    · show (1 / 2 : ℚ) < DBL_MAX
      linarith
    · show (1 / 2 : ℚ) < DBL_MAX
      linarith
  rw [meshFitsImage_eq _ _ _ _ hb, if_neg]
  rintro (h | h | h | h) <;> simp only at h <;> linarith

/-- The check accepts `secondOutside` for the unit square. -/
theorem meshFitsImage_secondOutside : meshFitsImage secondOutside (0, 1) (0, 1) = .ok true := by
  have h1 := DBL_MIN_lt_one
  have h2 := five_lt_DBL_MAX
  have hb : forRange (scanNode secondOutside.nodes) 1 secondOutside.getNNodes
      ⟨DBL_MAX, DBL_MAX, DBL_MIN, DBL_MIN⟩ = .ok ⟨5, 1 / 2, DBL_MIN, DBL_MIN⟩ := by
    have : secondOutside.getNNodes = 1 + 1 := rfl
    rw [this, forRange_one, scanNode_eq secondOutside.nodes 1 _ ⟨5, 1 / 2, 0, 1⟩ rfl, updateBounds_first]
    · show (5 : ℚ) < DBL_MAX
      linarith
    · show (1 / 2 : ℚ) < DBL_MAX
      linarith
  rw [meshFitsImage_eq _ _ _ _ hb, if_neg]
  rintro (h | h | h | h) <;> simp only at h <;> linarith

/-- The check rejects `negativeMesh` for the square [-2,-1] x [-2,-1]. -/
theorem meshFitsImage_negativeMesh :
    meshFitsImage negativeMesh (-2, -1) (-2, -1) = .ok false := by
  have h1 := DBL_MIN_pos
  have h2 := five_lt_DBL_MAX
  have hb : forRange (scanNode negativeMesh.nodes) 1 negativeMesh.getNNodes
      ⟨DBL_MAX, DBL_MAX, DBL_MIN, DBL_MIN⟩ = .ok ⟨-3 / 2, -3 / 2, DBL_MIN, DBL_MIN⟩ := by
    have : negativeMesh.getNNodes = 1 + 1 := rfl
    rw [this, forRange_one, scanNode_eq negativeMesh.nodes 1 _ ⟨-3 / 2, -3 / 2, 0, 1⟩ rfl, updateBounds_first]
    · show (-3 / 2 : ℚ) < DBL_MAX
      linarith
    · show (-3 / 2 : ℚ) < DBL_MAX
      linarith
  rw [meshFitsImage_eq _ _ _ _ hb, if_pos]
  right; left
  show DBL_MIN > -1
  linarith

/-- The check rejects `thirdOutside` for the unit square. -/
theorem meshFitsImage_thirdOutside : meshFitsImage thirdOutside (0, 1) (0, 1) = .ok false := by
  have h1 := DBL_MIN_lt_one
  have h2 := five_lt_DBL_MAX
  have hb : forRange (scanNode thirdOutside.nodes) 1 thirdOutside.getNNodes
      ⟨DBL_MAX, DBL_MAX, DBL_MIN, DBL_MIN⟩ = .ok ⟨1 / 2, 1 / 2, 5, 1 / 2⟩ := by
    have : thirdOutside.getNNodes = 1 + 2 := rfl
    rw [this, forRange_two, scanNode_eq thirdOutside.nodes 1 _ ⟨1 / 2, 1 / 2, 0, 1⟩ rfl,
      updateBounds_first]
    · simp only [bind, Except.bind]
      rw [scanNode_eq thirdOutside.nodes (1 + 1) _ ⟨5, 1 / 2, 0, 2⟩ rfl]
      have e1 : ¬ ((1 / 2 : ℚ) > 5) := by norm_num
      have e2 : DBL_MIN < (5 : ℚ) := by linarith
      have e3 : ¬ ((1 / 2 : ℚ) > 1 / 2) := by norm_num
      have e4 : DBL_MIN < (1 / 2 : ℚ) := DBL_MIN_lt_half
      simp only [updateBounds, if_neg e1, if_pos e2, if_neg e3, if_pos e4]
    · show (1 / 2 : ℚ) < DBL_MAX
      linarith
    · show (1 / 2 : ℚ) < DBL_MAX
      linarith
  rw [meshFitsImage_eq _ _ _ _ hb, if_pos]
  right; left
  show (5 : ℚ) > 1
  norm_num

/-- The loop body of `LayerMapping` on a node whose own cell holds a value: every
intermediate result named, the node receives the weighted sum of the four stencil values. -/
theorem mapNode_interpolated (r : Raster) (i : Nat) (nodes : List (Option Node))
    (noData_nodes : List Nat) (coords : Node) (xPos yPos xShift yShift : ℚ) (xIdx yIdx : Nat)
    (xShiftIdx yShiftIdx : Int) (locZ0 locZ1 locZ2 locZ3 : ℚ)
    (hc : vecGet nodes i = .ok (some coords))
    (hx : fdiv (coords.x - r.x0) r.delta = .ok xPos)
    (hy : fdiv (coords.y - r.y0) r.delta = .ok yPos)
    (hxi : toSizeT ⌊xPos⌋ = .ok xIdx) (hyi : toSizeT ⌊yPos⌋ = .ok yIdx)
    (hxs : fdiv (xPos - xIdx - 1 / 2 * r.delta) (1 / 2 * r.delta) = .ok xShift)
    (hys : fdiv (yPos - yIdx - 1 / 2 * r.delta) (1 / 2 * r.delta) = .ok yShift)
    (hxsi : toInt (if xShift ≥ 0 then ⌈xShift⌉ else ⌊xShift⌋) = .ok xShiftIdx)
    (hysi : toInt (if yShift ≥ 0 then ⌈yShift⌉ else ⌊yShift⌋) = .ok yShiftIdx)
    (h0 : vecGet r.elevation ((2 * (yIdx * r.width + xIdx)) % SIZE_MOD) = .ok locZ0)
    (hv : |locZ0 + 9999| > DBL_MIN)
    (h1 : neighbourValue r.elevation r.width xIdx yIdx (intToSizeT xShiftIdx) 0 locZ0
      = .ok locZ1)
    (h2 : neighbourValue r.elevation r.width xIdx yIdx (intToSizeT xShiftIdx)
      (intToSizeT yShiftIdx) locZ0 = .ok locZ2)
    (h3 : neighbourValue r.elevation r.width xIdx yIdx 0 (intToSizeT yShiftIdx) locZ0
      = .ok locZ3) :
    mapNode r i (nodes, noData_nodes) =
      (vecSet nodes i (some (coords.updateCoordinates coords.x coords.y
        ((List.zipWith (fun o l => o * l) (MPhi2D (1 - |xShift|) (1 - |xShift|))
          [locZ0, locZ1, locZ2, locZ3]).foldl (fun z t => z + t) 0)))).map
        (fun nodes => (nodes, noData_nodes)) := by
  simp only [mapNode, bind, Except.bind, hc, deref, hx, hy, hxi, hyi, hxs, hys, hxsi, hysi,
    h0, if_pos hv, h1, h2, h3, pure, Except.pure]
  cases vecSet nodes i _ <;> rfl

/-- The mapping proper when the NoData removal is not requested. -/
theorem mapLayer_keep (removeMeshNodes : Mesh → List Nat → Option Mesh) (mesh : Mesh)
    (r : Raster) (nLayers layer_id : Nat) (removeNoDataValues : Bool) (per : Nat)
    (s : List (Option Node) × List Nat)
    (hdiv : sizeDiv mesh.getNNodes ((nLayers + 1) % SIZE_MOD) = .ok per)
    (hloop : forRange (mapNode r) ((layer_id * per) % SIZE_MOD)
      (((layer_id * per) % SIZE_MOD + per) % SIZE_MOD) (mesh.nodes, []) = .ok s)
    (hkeep : ¬(nLayers = 0 ∧ removeNoDataValues = true)) :
    mapLayer removeMeshNodes mesh r nLayers layer_id removeNoDataValues =
      .ok ⟨1, some { mesh with nodes := s.1 }, false, some { mesh with nodes := s.1 }, s.2⟩ := by
  simp only [mapLayer, bind, Except.bind, hdiv, hloop, if_neg hkeep, pure, Except.pure]

/-- The mapping proper returns 1 whenever it returns. -/
theorem mapLayer_code (removeMeshNodes : Mesh → List Nat → Option Mesh) (mesh : Mesh)
    (r : Raster) (nLayers layer_id : Nat) (removeNoDataValues : Bool) (res : MappingResult)
    (h : mapLayer removeMeshNodes mesh r nLayers layer_id removeNoDataValues = .ok res) :
    res.code = 1 := by
  unfold mapLayer at h
  simp only [bind, Except.bind, pure, Except.pure] at h
  split at h
  · exact absurd h (by simp)
  · split at h
    · exact absurd h (by simp)
    · split_ifs at h <;> · cases h; rfl

/-- With a mesh, a loaded raster and `layer_id <= nLayers`, `LayerMapping` is decided by
`meshFitsImage`. -/
theorem LayerMapping_fits (removeMeshNodes : Mesh → List Nat → Option Mesh) (mesh : Mesh)
    (r : Raster) (nLayers layer_id : Nat) (removeNoDataValues : Bool) (fits : Bool)
    (hl : layer_id ≤ nLayers)
    (hf : meshFitsImage mesh (r.x0, r.x0 + r.width * r.delta)
      (r.y0, r.y0 + r.height * r.delta) = .ok fits) :
    LayerMapping removeMeshNodes (some mesh) (some r) nLayers layer_id removeNoDataValues =
      if fits then mapLayer removeMeshNodes mesh r nLayers layer_id removeNoDataValues
      else .ok ⟨0, some mesh, false, some mesh, []⟩ := by
  have hl' : nLayers ≥ layer_id := hl
  simp only [LayerMapping, if_pos hl', hf, bind, Except.bind, pure, Except.pure]
  cases fits <;> rfl

/-- With `layer_id > nLayers` or without a raster, `LayerMapping` returns 0 and leaves the
mesh alone. -/
theorem LayerMapping_early (removeMeshNodes : Mesh → List Nat → Option Mesh)
    (new_mesh : Option Mesh) (raster : Option Raster) (nLayers layer_id : Nat)
    (removeNoDataValues : Bool) (h : nLayers < layer_id ∨ raster = none) :
    LayerMapping removeMeshNodes new_mesh raster nLayers layer_id removeNoDataValues =
      .ok ⟨0, new_mesh, false, new_mesh, []⟩ := by
  cases new_mesh with
  | none => rfl
  | some mesh =>
    by_cases hl : nLayers ≥ layer_id
    · rcases h with h | h
      · omega
      · subst h
        simp only [LayerMapping, if_pos hl, pure, Except.pure]
    · simp only [LayerMapping, if_neg hl, pure, Except.pure]

/-- The floor of 1/2. -/
theorem floor_half : ⌊(1 / 2 : ℚ)⌋ = 0 := by
  rw [Int.floor_eq_iff]; norm_num

/-- Conversion of 0 to `size_t`. -/
theorem toSizeT_zero : toSizeT 0 = .ok 0 := by
  simp [toSizeT, SIZE_MOD]

/-- Conversion of 0 to `int`. -/
theorem toInt_zero : toInt 0 = .ok 0 := by
  simp [toInt]

/-- Conversion of the `int` 0 to `size_t`. -/
theorem intToSizeT_zero : intToSizeT 0 = 0 := by
  simp [intToSizeT]

/-- The elevation 7 is not the NoData value. -/
theorem seven_valid : |(7 : ℚ) + 9999| > DBL_MIN := by
  have h2 := DBL_MIN_lt_one
  rw [abs_of_pos (by norm_num)]; linarith

/-- Every neighbour read of the one-cell raster yields 7. -/
theorem neighbourValue_seven : neighbourValue [7] 1 0 0 0 0 7 = .ok 7 := by
  simp only [neighbourValue, vecGet, bind, Except.bind, pure, Except.pure]
  have : ¬ (|(7 : ℚ) + 9999| < DBL_MIN) := not_lt.mpr (le_of_lt seven_valid)
  simp [SIZE_MOD, this]

/-- A node at the centre of the single cell of `unitRaster` is mapped to z = 7. -/
theorem mapNode_centre (a : Option Node) (id : Nat) :
    mapNode unitRaster 1 ([a, some ⟨1 / 2, 1 / 2, 0, id⟩], []) =
      .ok ([a, some ⟨1 / 2, 1 / 2, 7, id⟩], []) := by
  refine (mapNode_interpolated unitRaster 1 _ [] ⟨1 / 2, 1 / 2, 0, id⟩ (1 / 2) (1 / 2) 0 0 0 0 0 0
    7 7 7 7 ?_ ?_ ?_ ?_ ?_ ?_ ?_ ?_ ?_ ?_ ?_ ?_ ?_ ?_).trans ?_
  · simp [vecGet]
  · simp [fdiv, unitRaster]
  · simp [fdiv, unitRaster]
  · rw [floor_half, toSizeT_zero]
  · rw [floor_half, toSizeT_zero]
  · simp [fdiv, unitRaster]
  · simp [fdiv, unitRaster]
  · simp [toInt_zero]
  · simp [toInt_zero]
  · simp [vecGet, unitRaster, SIZE_MOD]
  · exact seven_valid
  · rw [intToSizeT_zero]; exact neighbourValue_seven
  · rw [intToSizeT_zero]; exact neighbourValue_seven
  · rw [intToSizeT_zero]; exact neighbourValue_seven
  · have hz : (List.foldl (fun z t => z + t) 0 (List.zipWith (fun o l => o * l)
        (MPhi2D (1 - |0|) (1 - |0|)) [7, 7, 7, 7])) = (7 : ℚ) := by
      norm_num [MPhi2D]
    rw [hz]
    simp [vecSet, Node.updateCoordinates, Except.map]

/-- The extent of `unitRaster` is the unit square. -/
theorem unitRaster_extent :
    (unitRaster.x0, unitRaster.x0 + (unitRaster.width : ℚ) * unitRaster.delta) = (0, 1) ∧
    (unitRaster.y0, unitRaster.y0 + (unitRaster.height : ℚ) * unitRaster.delta) = (0, 1) := by
  simp [unitRaster]

/-- The run of `LayerMapping` on `firstOutside`, layer 1 of 1, over `unitRaster`. -/
theorem LayerMapping_firstOutside :
    LayerMapping keepMesh (some firstOutside) (some unitRaster) 1 1 false =
      .ok ⟨1, some { firstOutside with
          nodes := [some ⟨5, 1 / 2, 0, 0⟩, some ⟨1 / 2, 1 / 2, 7, 1⟩] }, false,
        some { firstOutside with
          nodes := [some ⟨5, 1 / 2, 0, 0⟩, some ⟨1 / 2, 1 / 2, 7, 1⟩] }, []⟩ := by
  have hf : meshFitsImage firstOutside
      (unitRaster.x0, unitRaster.x0 + (unitRaster.width : ℚ) * unitRaster.delta)
      (unitRaster.y0, unitRaster.y0 + (unitRaster.height : ℚ) * unitRaster.delta)
      = .ok true := by
    rw [unitRaster_extent.1, unitRaster_extent.2]
    exact meshFitsImage_firstOutside
  rw [LayerMapping_fits keepMesh firstOutside unitRaster 1 1 false true (le_refl _) hf, if_pos rfl]
  have hdiv : sizeDiv firstOutside.getNNodes ((1 + 1) % SIZE_MOD) = .ok 1 := by
    simp [sizeDiv, SIZE_MOD, firstOutside, Mesh.getNNodes]
  have hloop : forRange (mapNode unitRaster) ((1 * 1) % SIZE_MOD)
      (((1 * 1) % SIZE_MOD + 1) % SIZE_MOD) (firstOutside.nodes, []) =
      .ok ([some ⟨5, 1 / 2, 0, 0⟩, some ⟨1 / 2, 1 / 2, 7, 1⟩], []) := by
    have e1 : (1 * 1) % SIZE_MOD = 1 := by simp [SIZE_MOD]
    have e2 : (1 + 1) % SIZE_MOD = 1 + 1 := by simp [SIZE_MOD]
    rw [e1, e2, forRange_one]
    exact mapNode_centre _ 1
  rw [mapLayer_keep keepMesh firstOutside unitRaster 1 1 false 1 _ hdiv hloop (by simp)]

/-- Every returning run of `LayerMapping` either takes a failure exit, returning 0 with the
mesh as passed, or reaches the mapping proper. -/
theorem LayerMapping_cases (removeMeshNodes : Mesh → List Nat → Option Mesh)
    (new_mesh : Option Mesh) (raster : Option Raster) (nLayers layer_id : Nat)
    (removeNoDataValues : Bool) (res : MappingResult)
    (h : LayerMapping removeMeshNodes new_mesh raster nLayers layer_id removeNoDataValues
      = .ok res) :
    (res = ⟨0, new_mesh, false, new_mesh, []⟩ ∧
      (new_mesh = none ∨ nLayers < layer_id ∨ raster = none ∨
        ∃ mesh r, new_mesh = some mesh ∧ raster = some r ∧
          meshFitsImage mesh (r.x0, r.x0 + r.width * r.delta)
            (r.y0, r.y0 + r.height * r.delta) = .ok false)) ∨
    (∃ mesh r, new_mesh = some mesh ∧ raster = some r ∧ layer_id ≤ nLayers ∧
      meshFitsImage mesh (r.x0, r.x0 + r.width * r.delta)
        (r.y0, r.y0 + r.height * r.delta) = .ok true ∧
      mapLayer removeMeshNodes mesh r nLayers layer_id removeNoDataValues = .ok res) := by
  cases new_mesh with
  | none =>
    left
    have : LayerMapping removeMeshNodes none raster nLayers layer_id removeNoDataValues
        = .ok ⟨0, none, false, none, []⟩ := rfl
    rw [this] at h
    cases h
    exact ⟨rfl, Or.inl rfl⟩
  | some mesh =>
    by_cases hl : nLayers < layer_id
    · left
      rw [LayerMapping_early _ _ _ _ _ _ (Or.inl hl)] at h
      cases h
      exact ⟨rfl, Or.inr (Or.inl hl)⟩
    · cases raster with
      | none =>
        left
        rw [LayerMapping_early _ _ _ _ _ _ (Or.inr rfl)] at h
        cases h
        exact ⟨rfl, Or.inr (Or.inr (Or.inl rfl))⟩
      | some r =>
        cases hf : meshFitsImage mesh (r.x0, r.x0 + r.width * r.delta)
            (r.y0, r.y0 + r.height * r.delta) with
        | error e =>
          have hl' : nLayers ≥ layer_id := Nat.le_of_not_lt hl
          simp only [LayerMapping, if_pos hl', hf, bind, Except.bind] at h
          exact absurd h (by simp)
        | ok fits =>
          rw [LayerMapping_fits _ _ _ _ _ _ fits (Nat.le_of_not_lt hl) hf] at h
          cases fits with
          | false =>
            left
            simp only [Bool.false_eq_true, if_false] at h
            cases h
            exact ⟨rfl, Or.inr (Or.inr (Or.inr ⟨mesh, r, rfl, rfl, hf⟩))⟩
          | true =>
            right
            simp only [if_true] at h
            exact ⟨mesh, r, rfl, rfl, Nat.le_of_not_lt hl, hf, h⟩

/-- C7 (code defect): `meshFitsImage` accepts the unit square extent [0,1] x [0,1] for a
mesh whose first node lies at x = 5 (the loop starts at index 1) and for a mesh whose second
node lies at x = 5 (the node sets the minimum, and the `else if` then skips the maximum);
`LayerMapping` on the first mesh and the one-cell raster over that extent returns 1, not
its failure result. -/
theorem meshFitsImage_misses_outside_node :
    meshFitsImage firstOutside (0, 1) (0, 1) = .ok true ∧
    meshFitsImage secondOutside (0, 1) (0, 1) = .ok true ∧
    ∃ res, LayerMapping keepMesh (some firstOutside) (some unitRaster) 1 1 false = .ok res ∧
      res.code = 1 :=
  ⟨meshFitsImage_firstOutside, meshFitsImage_secondOutside, _, LayerMapping_firstOutside, rfl⟩

/-- C8 (code defect): every node of `negativeMesh` lies in [-2,-1] x [-2,-1], yet
`meshFitsImage` returns false for that extent: the running maxima start at `DBL_MIN`, the
smallest positive `double`, which exceeds the upper bound -1. -/
theorem meshFitsImage_rejects_negative_extent :
    (∀ p ∈ negativeMesh.nodes, ∃ n, p = some n ∧
      (-2 : ℚ) ≤ n.x ∧ n.x ≤ -1 ∧ (-2 : ℚ) ≤ n.y ∧ n.y ≤ -1) ∧
    meshFitsImage negativeMesh (-2, -1) (-2, -1) = .ok false := by
  refine ⟨?_, meshFitsImage_negativeMesh⟩
  intro p hp
  simp only [negativeMesh, List.mem_cons, List.mem_singleton, List.not_mem_nil, or_false,
    or_self] at hp
  rcases hp with hp | hp <;> subst hp <;>
    exact ⟨_, rfl, by norm_num, by norm_num, by norm_num, by norm_num⟩

/-- C9 (as stated, refuted): the precondition failure `layer_id = 3 > nLayers = 2`, the
raster-load failure and the extent mismatch of `thirdOutside` against the unit raster all
return the same code. -/
theorem LayerMapping_failure_codes_coincide :
    ∃ r1 r2 r3,
      LayerMapping keepMesh (some thirdOutside) (some unitRaster) 2 3 false = .ok r1 ∧
      LayerMapping keepMesh (some thirdOutside) none 2 0 false = .ok r2 ∧
      LayerMapping keepMesh (some thirdOutside) (some unitRaster) 2 0 false = .ok r3 ∧
      r1.code = r2.code ∧ r2.code = r3.code ∧ r1.code = r3.code := by
  have hf : meshFitsImage thirdOutside
      (unitRaster.x0, unitRaster.x0 + (unitRaster.width : ℚ) * unitRaster.delta)
      (unitRaster.y0, unitRaster.y0 + (unitRaster.height : ℚ) * unitRaster.delta)
      = .ok false := by
    rw [unitRaster_extent.1, unitRaster_extent.2]
    exact meshFitsImage_thirdOutside
  refine ⟨_, _, _, LayerMapping_early _ _ _ _ _ _ (Or.inl (by decide)),
    LayerMapping_early _ _ _ _ _ _ (Or.inr rfl), ?_, rfl, rfl, rfl⟩
  rw [LayerMapping_fits keepMesh thirdOutside unitRaster 2 0 false false (by decide) hf]
  rfl

/-- C9 (amended): `LayerMapping` returns 0 for a null mesh, for `layer_id > nLayers`, for
a raster that could not be loaded and for a mesh that `meshFitsImage` rejects, and it
returns 1 exactly when none of these failures occurs: the code tells success from failure
and nothing more. -/
theorem LayerMapping_return_code (removeMeshNodes : Mesh → List Nat → Option Mesh)
    (new_mesh : Option Mesh) (raster : Option Raster) (nLayers layer_id : Nat)
    (removeNoDataValues : Bool) :
    ((new_mesh = none ∨ nLayers < layer_id ∨ raster = none) →
      ∃ res, LayerMapping removeMeshNodes new_mesh raster nLayers layer_id removeNoDataValues
        = .ok res ∧ res.code = 0) ∧
    (∀ mesh r, new_mesh = some mesh → raster = some r → layer_id ≤ nLayers →
      meshFitsImage mesh (r.x0, r.x0 + r.width * r.delta)
        (r.y0, r.y0 + r.height * r.delta) = .ok false →
      ∃ res, LayerMapping removeMeshNodes new_mesh raster nLayers layer_id removeNoDataValues
        = .ok res ∧ res.code = 0) ∧
    (∀ res, LayerMapping removeMeshNodes new_mesh raster nLayers layer_id removeNoDataValues
        = .ok res →
      (res.code = 0 ∨ res.code = 1) ∧
      (res.code = 1 ↔ ∃ mesh r, new_mesh = some mesh ∧ raster = some r ∧ layer_id ≤ nLayers ∧
        meshFitsImage mesh (r.x0, r.x0 + r.width * r.delta)
          (r.y0, r.y0 + r.height * r.delta) = .ok true)) := by
  refine ⟨?_, ?_, ?_⟩
  · rintro (h | h)
    · subst h
      exact ⟨_, rfl, rfl⟩
    · exact ⟨_, LayerMapping_early _ _ _ _ _ _ h, rfl⟩
  · intro mesh r hm hr hl hf
    subst hm hr
    rw [LayerMapping_fits _ _ _ _ _ _ false hl hf]
    exact ⟨_, rfl, rfl⟩
  · intro res h
    rcases LayerMapping_cases _ _ _ _ _ _ _ h with ⟨hres, hc⟩ | ⟨mesh, r, hm, hr, hl, hf, hmap⟩
    · subst hres
      refine ⟨Or.inl rfl, ⟨fun h1 => absurd h1 (by simp), ?_⟩⟩
      rintro ⟨mesh, r, hm, hr, hl, hf⟩
      exfalso
      rcases hc with hc | hc | hc | ⟨mesh', r', hm', hr', hf'⟩
      · rw [hm] at hc; cases hc
      · omega
      · rw [hr] at hc; cases hc
      · rw [hm] at hm'; rw [hr] at hr'
        cases hm'; cases hr'
        rw [hf] at hf'
        cases hf'
    · have hcode := mapLayer_code _ _ _ _ _ _ _ hmap
      exact ⟨Or.inr hcode, fun _ => ⟨mesh, r, hm, hr, hl, hf⟩, fun _ => hcode⟩

/-- Instances of the return code theorem: a precondition failure and a successful run. -/
theorem LayerMapping_return_code_witness :
    ((some thirdOutside = none ∨ 2 < 3 ∨ some unitRaster = none) ∧
      ∃ res, LayerMapping keepMesh (some thirdOutside) (some unitRaster) 2 3 false = .ok res ∧
        res.code = 0) ∧
    (LayerMapping keepMesh (some firstOutside) (some unitRaster) 1 1 false =
      .ok ⟨1, some { firstOutside with
          nodes := [some ⟨5, 1 / 2, 0, 0⟩, some ⟨1 / 2, 1 / 2, 7, 1⟩] }, false,
        some { firstOutside with
          nodes := [some ⟨5, 1 / 2, 0, 0⟩, some ⟨1 / 2, 1 / 2, 7, 1⟩] }, []⟩ ∧
      ((1 : Int) = 0 ∨ (1 : Int) = 1)) :=
  ⟨⟨Or.inr (Or.inl (by decide)),
    (LayerMapping_return_code keepMesh (some thirdOutside) (some unitRaster) 2 3 false).1
      (Or.inr (Or.inl (by decide)))⟩,
   LayerMapping_firstOutside,
    ((LayerMapping_return_code keepMesh (some firstOutside) (some unitRaster) 1 1 false).2.2 _
      LayerMapping_firstOutside).1⟩

/-- C10: whenever `LayerMapping` returns its failure result 0, the mesh object the caller
passed is left as it was and is not deleted; and it does return that result, with the mesh
untouched, when `layer_id > nLayers`, when the raster loader fails and when `meshFitsImage`
rejects the mesh. -/
theorem LayerMapping_failure_leaves_mesh (removeMeshNodes : Mesh → List Nat → Option Mesh)
    (new_mesh : Option Mesh) (raster : Option Raster) (nLayers layer_id : Nat)
    (removeNoDataValues : Bool) :
    ((nLayers < layer_id ∨ raster = none) →
      LayerMapping removeMeshNodes new_mesh raster nLayers layer_id removeNoDataValues
        = .ok ⟨0, new_mesh, false, new_mesh, []⟩) ∧
    (∀ mesh r, new_mesh = some mesh → raster = some r → layer_id ≤ nLayers →
      meshFitsImage mesh (r.x0, r.x0 + r.width * r.delta)
        (r.y0, r.y0 + r.height * r.delta) = .ok false →
      LayerMapping removeMeshNodes new_mesh raster nLayers layer_id removeNoDataValues
        = .ok ⟨0, new_mesh, false, new_mesh, []⟩) ∧
    (∀ res, LayerMapping removeMeshNodes new_mesh raster nLayers layer_id removeNoDataValues
        = .ok res → res.code = 0 → res.mesh = new_mesh ∧ res.deleted = false) := by
  refine ⟨LayerMapping_early _ _ _ _ _ _, ?_, ?_⟩
  · intro mesh r hm hr hl hf
    subst hm hr
    rw [LayerMapping_fits _ _ _ _ _ _ false hl hf]
    rfl
  · intro res h hcode
    rcases LayerMapping_cases _ _ _ _ _ _ _ h with ⟨hres, -⟩ | ⟨mesh, r, -, -, -, -, hmap⟩
    · subst hres
      exact ⟨rfl, rfl⟩
    · have := mapLayer_code _ _ _ _ _ _ _ hmap
      omega

/-- Instance of the failure theorem: layer 3 of a 2-layer mesh. -/
theorem LayerMapping_failure_leaves_mesh_witness :
    (2 < 3 ∨ some unitRaster = none) ∧
    LayerMapping keepMesh (some thirdOutside) (some unitRaster) 2 3 false
      = .ok ⟨0, some thirdOutside, false, some thirdOutside, []⟩ :=
  ⟨Or.inl (by decide),
    (LayerMapping_failure_leaves_mesh keepMesh (some thirdOutside) (some unitRaster) 2 3
      false).1 (Or.inl (by decide))⟩


/-- A sequenced computation returns exactly when both of its parts return. -/
theorem bind_ok_iff {α β : Type} (x : Except Fault α) (f : α → Except Fault β) (b : β) :
    (x >>= f) = .ok b ↔ ∃ a, x = .ok a ∧ f a = .ok b := by
  cases x with
  | error e => simp [bind, Except.bind]
  | ok a => simp [bind, Except.bind]

/-- Inversion rule for `forLoop`: a property that holds at the start and that every
returning iteration preserves holds for the state a returning loop ends with. -/
theorem forLoop_ok_inv {σ : Type} (P : Nat → σ → Prop) (body : Nat → σ → Except Fault σ)
    (n : Nat) (s t : σ) (h0 : P 0 s)
    (hstep : ∀ i u u', i < n → P i u → body i u = .ok u' → P (i + 1) u')
    (h : forLoop body n s = .ok t) : P n t := by
  induction n generalizing t with
  | zero =>
    have : s = t := by simpa [forLoop] using h
    exact this ▸ h0
  | succ k ih =>
    rw [forLoop, bind_ok_iff] at h
    obtain ⟨u, hu, hb⟩ := h
    exact hstep k u t (Nat.lt_succ_self k)
      (ih u (fun i u u' hi => hstep i u u' (Nat.lt_succ_of_lt hi)) hu) hb

/-- A returning read yields the entry at the index. -/
theorem vecGet_ok_iff {α : Type} (v : List α) (i : Nat) (a : α) :
    vecGet v i = .ok a ↔ v.get? i = some a := by
  unfold vecGet
  cases v.get? i <;> simp

/-- A returning dereference yields the object pointed to. -/
theorem deref_ok_iff {α : Type} (p : Option α) (a : α) : deref p = .ok a ↔ p = some a := by
  cases p <;> simp [deref]

/-- A returning write replaces the entry at the index. -/
theorem vecSet_ok_iff {α : Type} (v w : List α) (i : Nat) (a : α) :
    vecSet v i a = .ok w ↔ i < v.length ∧ w = v.set i a := by
  unfold vecSet
  split <;> simp_all [eq_comm]

/-- A neighbour read that returns yields the substituted raw value at its index. -/
theorem neighbourValue_ok_iff (elevation : List ℚ) (width xIdx yIdx x_nb y_nb : Nat)
    (locZ0 z : ℚ) :
    neighbourValue elevation width xIdx yIdx x_nb y_nb locZ0 = .ok z ↔
      ∃ v, elevation.get? ((2 * ((yIdx + y_nb) * width + (xIdx + x_nb))) % SIZE_MOD) = some v ∧
        z = substituteNoData locZ0 v := by
  unfold neighbourValue
  rw [bind_ok_iff]
  simp only [vecGet_ok_iff, pure, Except.pure, Except.ok.injEq, substituteNoData]
  constructor
  · rintro ⟨v, hv, hz⟩
    exact ⟨v, hv, hz.symm⟩
  · rintro ⟨v, hv, hz⟩
    exact ⟨v, hv, hz.symm⟩

/-- Inversion of the loop body of `LayerMapping`: an iteration that returns found the
node, located it, read its own cell, and left the outcome described by `NodeOutcome` at
the node's index, touching no other entry. -/
theorem mapNode_inv (r : Raster) (i : Nat) (nodes : List (Option Node)) (nd : List Nat)
    (s' : List (Option Node) × List Nat) (h : mapNode r i (nodes, nd) = .ok s') :
    ∃ coords out recorded, nodes.get? i = some (some coords) ∧ i < nodes.length ∧
      NodeOutcome r coords out recorded ∧
      s' = (nodes.set i (some out), if recorded = true then nd ++ [i] else nd) := by
  unfold mapNode at h
  simp only [bind_ok_iff, vecGet_ok_iff, deref_ok_iff] at h
  obtain ⟨coords, ⟨pc, hpc, hc⟩, xPos, hx, yPos, hy, xIdx, hxi, yIdx, hyi, xShift, hxs,
    yShift, hys, xShiftIdx, hxsi, yShiftIdx, hysi, locZ0, h0, h⟩ := h
  subst hc
  have hloc : locate r coords = .ok ⟨xIdx, yIdx, xShift, yShift, xShiftIdx, yShiftIdx⟩ := by
    simp only [locate, bind, Except.bind, hx, hy, hxi, hyi, hxs, hys, hxsi, hysi, pure,
      Except.pure]
  have hidx0 : stencilIndex r ⟨xIdx, yIdx, xShift, yShift, xShiftIdx, yShiftIdx⟩ 0
      = (2 * (yIdx * r.width + xIdx)) % SIZE_MOD := by
    simp [stencilIndex]
  by_cases hv : |locZ0 + 9999| > DBL_MIN
  · rw [if_pos hv] at h
    simp only [bind_ok_iff, neighbourValue_ok_iff, vecSet_ok_iff, pure, Except.pure,
      Except.ok.injEq] at h
    obtain ⟨z1, ⟨v1, hv1, hz1⟩, z2, ⟨v2, hv2, hz2⟩, z3, ⟨v3, hv3, hz3⟩, nodes', ⟨hlt, hn⟩,
      hs⟩ := h
    subst hz1 hz2 hz3 hn
    refine ⟨coords, _, false, hpc, hlt, ⟨_, locZ0, hloc, by rw [hidx0]; exact h0,
      Or.inr ⟨hv, rfl, v1, v2, v3, ?_, ?_, ?_, rfl⟩⟩, ?_⟩
    · simpa [stencilIndex] using hv1
    · simpa [stencilIndex] using hv2
    · simpa [stencilIndex] using hv3
    · rw [← hs]; rfl
  · rw [if_neg hv] at h
    simp only [bind_ok_iff, vecSet_ok_iff, pure, Except.pure, Except.ok.injEq] at h
    obtain ⟨nodes', ⟨hlt, hn⟩, hs⟩ := h
    subst hn
    refine ⟨coords, _, true, hpc, hlt, ⟨_, locZ0, hloc, by rw [hidx0]; exact h0,
      Or.inl ⟨hv, rfl, rfl⟩⟩, ?_⟩
    rw [← hs]; rfl

/-- An entry other than the written one is unchanged. -/
theorem get?_set_of_ne {α : Type} (l : List α) (i j : Nat) (a : α) (h : i ≠ j) :
    (l.set i a).get? j = l.get? j := by
  simp [List.getElem?_set_ne h]

/-- The written entry holds the written value. -/
theorem get?_set_self {α : Type} (l : List α) (i : Nat) (a : α) (h : i < l.length) :
    (l.set i a).get? i = some a := by
  simp [h]

/-- The node loop of `LayerMapping`, seen from its result: the node vector keeps its length,
entries outside `[first, last)` are untouched, every entry inside holds the outcome of its
own iteration, and the indices recorded in `noData_nodes` are those whose iteration took the
NoData branch. -/
theorem mapLoop_inv (r : Raster) (first last : Nat) (nodes0 : List (Option Node))
    (s : List (Option Node) × List Nat)
    (h : forRange (mapNode r) first last (nodes0, []) = .ok s) :
    s.1.length = nodes0.length ∧
    (∀ j, (j < first ∨ last ≤ j) → s.1.get? j = nodes0.get? j) ∧
    (∀ j, first ≤ j → j < last → ∃ coords out recorded,
      nodes0.get? j = some (some coords) ∧ s.1.get? j = some (some out) ∧
      NodeOutcome r coords out recorded ∧ (j ∈ s.2 ↔ recorded = true)) ∧
    (∀ j ∈ s.2, first ≤ j ∧ j < last) := by
  have key := forLoop_ok_inv
    (fun k (u : List (Option Node) × List Nat) =>
      u.1.length = nodes0.length ∧
      (∀ j, (j < first ∨ first + k ≤ j) → u.1.get? j = nodes0.get? j) ∧
      (∀ j, first ≤ j → j < first + k → ∃ coords out recorded,
        nodes0.get? j = some (some coords) ∧ u.1.get? j = some (some out) ∧
        NodeOutcome r coords out recorded ∧ (j ∈ u.2 ↔ recorded = true)) ∧
      (∀ j ∈ u.2, first ≤ j ∧ j < first + k))
    (fun k => mapNode r (first + k)) (last - first) (nodes0, []) s
    ⟨rfl, fun _ _ => rfl, fun j h1 h2 => absurd h2 (by omega), fun j hj => by simp at hj⟩
    (by
      intro k u u' _ hP hb
      obtain ⟨hlen, hout, hin, hnd⟩ := hP
      obtain ⟨nodes, nd⟩ := u
      obtain ⟨coords, out, recorded, hget, hlt, hno, hu'⟩ := mapNode_inv r _ _ _ _ hb
      subst hu'
      simp only at hlen hout hin hnd ⊢
      refine ⟨by rw [List.length_set]; exact hlen, ?_, ?_, ?_⟩
      · intro j hj
        rw [get?_set_of_ne _ _ _ _ (by omega)]
        exact hout j (by omega)
      · intro j h1 h2
        by_cases hjk : j = first + k
        · subst hjk
          refine ⟨coords, out, recorded, ?_, get?_set_self _ _ _ hlt, hno, ?_⟩
          · rw [← hout _ (Or.inr (le_refl _))]; exact hget
          · have hnot : first + k ∉ nd := fun hm => absurd (hnd _ hm).2 (by omega)
            cases recorded <;> simp [hnot]
        · obtain ⟨c, o, rec, hc, ho, hno', hmem⟩ := hin j h1 (by omega)
          refine ⟨c, o, rec, hc, ?_, hno', ?_⟩
          · rw [get?_set_of_ne _ _ _ _ (Ne.symm hjk)]; exact ho
          · rw [← hmem]
            cases recorded <;> simp [hjk]
      · intro j hj
        cases recorded with
        | false =>
          have := hnd j (by simpa using hj)
          omega
        | true =>
          simp only [if_true, List.mem_append, List.mem_singleton] at hj
          rcases hj with hj | hj
          · have := hnd j hj
            omega
          · omega)
    h
  obtain ⟨hlen, hout, hin, hnd⟩ := key
  refine ⟨hlen, fun j hj => hout j (by omega), fun j h1 h2 => hin j h1 (by omega), ?_⟩
  intro j hj
  have := hnd j hj
  omega

/-- A returning division has a divisor other than zero. -/
theorem sizeDiv_ok_iff (a b q : Nat) : sizeDiv a b = .ok q ↔ b ≠ 0 ∧ q = a / b := by
  unfold sizeDiv
  split <;> simp_all [eq_comm]

/-- The mapping proper, given the result of its node loop. -/
theorem mapLayer_of_loop (removeMeshNodes : Mesh → List Nat → Option Mesh) (mesh : Mesh)
    (r : Raster) (nLayers layer_id : Nat) (removeNoDataValues : Bool)
    (s : List (Option Node) × List Nat) (hdiv : (nLayers + 1) % SIZE_MOD ≠ 0)
    (hloop : forRange (mapNode r) (firstNode mesh.getNNodes nLayers layer_id)
      (lastNode mesh.getNNodes nLayers layer_id) (mesh.nodes, []) = .ok s) :
    mapLayer removeMeshNodes mesh r nLayers layer_id removeNoDataValues =
      .ok (removalStep removeMeshNodes { mesh with nodes := s.1 } mesh.getNNodes nLayers
        removeNoDataValues s.2) := by
  simp only [lastNode, firstNode, nodesPerLayer] at hloop
  simp only [mapLayer, sizeDiv, if_neg hdiv, bind, Except.bind, hloop, removalStep, pure,
    Except.pure]
  split_ifs <;> rfl

/-- The mapping proper, seen from its result: the node loop returned and the removal step
produced the result. -/
theorem mapLayer_inv (removeMeshNodes : Mesh → List Nat → Option Mesh) (mesh : Mesh)
    (r : Raster) (nLayers layer_id : Nat) (removeNoDataValues : Bool) (res : MappingResult)
    (h : mapLayer removeMeshNodes mesh r nLayers layer_id removeNoDataValues = .ok res) :
    ∃ s, forRange (mapNode r) (firstNode mesh.getNNodes nLayers layer_id)
        (lastNode mesh.getNNodes nLayers layer_id) (mesh.nodes, []) = .ok s ∧
      res = removalStep removeMeshNodes { mesh with nodes := s.1 } mesh.getNNodes nLayers
        removeNoDataValues s.2 := by
  have h' := h
  unfold mapLayer at h'
  rw [bind_ok_iff] at h'
  obtain ⟨per, hper, h'⟩ := h'
  rw [sizeDiv_ok_iff] at hper
  obtain ⟨hdiv, hper⟩ := hper
  subst hper
  rw [bind_ok_iff] at h'
  obtain ⟨s, hs, -⟩ := h'
  have hloop : forRange (mapNode r) (firstNode mesh.getNNodes nLayers layer_id)
      (lastNode mesh.getNNodes nLayers layer_id) (mesh.nodes, []) = .ok s := hs
  refine ⟨s, hloop, ?_⟩
  rw [mapLayer_of_loop _ _ _ _ _ _ s hdiv hloop] at h
  exact (Except.ok.inj h).symm

/-- The removal step keeps the mesh the loop left and the recorded indices, and returns 1. -/
theorem removalStep_fields (removeMeshNodes : Mesh → List Nat → Option Mesh) (mapped : Mesh)
    (nNodes nLayers : Nat) (removeNoDataValues : Bool) (noData_nodes : List Nat) :
    (removalStep removeMeshNodes mapped nNodes nLayers removeNoDataValues noData_nodes).code
      = 1 ∧
    (removalStep removeMeshNodes mapped nNodes nLayers removeNoDataValues noData_nodes).mesh
      = some mapped ∧
    (removalStep removeMeshNodes mapped nNodes nLayers removeNoDataValues
      noData_nodes).noData_nodes = noData_nodes := by
  unfold removalStep
  split_ifs <;> exact ⟨rfl, rfl, rfl⟩

/-- Without overflow of `nLayers + 1` the range of the node loop is the layer's block. -/
theorem node_range (nNodes nLayers layer_id : Nat) (hN : nNodes < SIZE_MOD)
    (hL : nLayers + 1 < SIZE_MOD) (hl : layer_id ≤ nLayers) :
    firstNode nNodes nLayers layer_id = layer_id * (nNodes / (nLayers + 1)) ∧
    lastNode nNodes nLayers layer_id
      = layer_id * (nNodes / (nLayers + 1)) + nNodes / (nLayers + 1) ∧
    lastNode nNodes nLayers layer_id ≤ nNodes := by
  have hper : nodesPerLayer nNodes nLayers = nNodes / (nLayers + 1) := by
    unfold nodesPerLayer
    rw [Nat.mod_eq_of_lt hL]
  have h1 : (layer_id + 1) * (nNodes / (nLayers + 1)) ≤ (nLayers + 1) * (nNodes / (nLayers + 1)) :=
    Nat.mul_le_mul_right _ (by omega)
  have h2 : (nLayers + 1) * (nNodes / (nLayers + 1)) ≤ nNodes := Nat.mul_div_le _ _
  have h3 : (layer_id + 1) * (nNodes / (nLayers + 1))
      = layer_id * (nNodes / (nLayers + 1)) + nNodes / (nLayers + 1) := by ring
  have hf : firstNode nNodes nLayers layer_id = layer_id * (nNodes / (nLayers + 1)) := by
    unfold firstNode
    rw [hper, Nat.mod_eq_of_lt (by omega)]
  have hlast : lastNode nNodes nLayers layer_id
      = layer_id * (nNodes / (nLayers + 1)) + nNodes / (nLayers + 1) := by
    unfold lastNode
    rw [hf, hper, Nat.mod_eq_of_lt (by omega)]
  exact ⟨hf, hlast, by omega⟩

/-- The node an iteration leaves has the x, the y and the identifier of the node it found. -/
theorem NodeOutcome_frame (r : Raster) (coords out : Node) (recorded : Bool)
    (h : NodeOutcome r coords out recorded) :
    out.x = coords.x ∧ out.y = coords.y ∧ out.id = coords.id := by
  obtain ⟨p, locZ0, -, -, h⟩ := h
  rcases h with ⟨-, -, hout⟩ | ⟨-, -, v1, v2, v3, -, -, -, hout⟩ <;>
    · subst hout
      exact ⟨rfl, rfl, rfl⟩

/-- C16: with `totalNodes` a `size_t`, `nLayers + 1` not overflowing and
`layerIndex <= nLayers`, the range the node loop iterates is
`firstNode = layerIndex * (totalNodes / (nLayers + 1))` up to
`lastNode = firstNode + totalNodes / (nLayers + 1)`, and `lastNode <= totalNodes`, so every
index of the loop is inside the node vector; and whatever a returning call leaves, the mesh
has the same name, elements and node count, every node outside that range is as it was, and
every node has the x, the y and the identifier it had. -/
theorem LayerMapping_node_range (removeMeshNodes : Mesh → List Nat → Option Mesh)
    (mesh : Mesh) (r : Raster) (nLayers layer_id : Nat) (removeNoDataValues : Bool)
    (hN : mesh.getNNodes < SIZE_MOD) (hL : nLayers + 1 < SIZE_MOD) (hl : layer_id ≤ nLayers) :
    firstNode mesh.getNNodes nLayers layer_id
      = layer_id * (mesh.getNNodes / (nLayers + 1)) ∧
    lastNode mesh.getNNodes nLayers layer_id
      = layer_id * (mesh.getNNodes / (nLayers + 1)) + mesh.getNNodes / (nLayers + 1) ∧
    lastNode mesh.getNNodes nLayers layer_id ≤ mesh.getNNodes ∧
    (∀ i, firstNode mesh.getNNodes nLayers layer_id ≤ i →
      i < lastNode mesh.getNNodes nLayers layer_id → i < mesh.nodes.length) ∧
    ∀ res, LayerMapping removeMeshNodes (some mesh) (some r) nLayers layer_id
        removeNoDataValues = .ok res →
      ∃ after, res.mesh = some after ∧ after.name = mesh.name ∧ after.elems = mesh.elems ∧
        after.nodes.length = mesh.nodes.length ∧
        ∀ j, ((j < firstNode mesh.getNNodes nLayers layer_id ∨
              lastNode mesh.getNNodes nLayers layer_id ≤ j) →
            after.nodes.get? j = mesh.nodes.get? j) ∧
          ∀ n, mesh.nodes.get? j = some (some n) →
            ∃ n', after.nodes.get? j = some (some n') ∧
              n'.x = n.x ∧ n'.y = n.y ∧ n'.id = n.id := by
  obtain ⟨hf, hlast, hle⟩ := node_range mesh.getNNodes nLayers layer_id hN hL hl
  refine ⟨hf, hlast, hle, fun i _ hi => lt_of_lt_of_le hi hle, ?_⟩
  intro res h
  rcases LayerMapping_cases _ _ _ _ _ _ _ h with ⟨hres, -⟩ | ⟨m, r', hm, hr, -, -, hmap⟩
  · subst hres
    exact ⟨mesh, rfl, rfl, rfl, rfl, fun j => ⟨fun _ => rfl, fun n hn => ⟨n, hn, rfl, rfl, rfl⟩⟩⟩
  · cases hm
    cases hr
    obtain ⟨s, hloop, hres⟩ := mapLayer_inv _ _ _ _ _ _ _ hmap
    obtain ⟨hlen, hout, hin, -⟩ := mapLoop_inv _ _ _ _ _ hloop
    have hmesh := (removalStep_fields removeMeshNodes { mesh with nodes := s.1 }
      mesh.getNNodes nLayers removeNoDataValues s.2).2.1
    rw [← hres] at hmesh
    refine ⟨{ mesh with nodes := s.1 }, hmesh, rfl, rfl, hlen, fun j => ⟨hout j, ?_⟩⟩
    intro n hn
    by_cases hj : j < firstNode mesh.getNNodes nLayers layer_id ∨
        lastNode mesh.getNNodes nLayers layer_id ≤ j
    · exact ⟨n, by rw [← hn]; exact hout j hj, rfl, rfl, rfl⟩
    · obtain ⟨coords, out, recorded, hc, ho, hno, -⟩ := hin j (by omega) (by omega)
      rw [hn] at hc
      cases hc
      exact ⟨out, ho, NodeOutcome_frame _ _ _ _ hno⟩

/-- A mesh of at most one node passes `meshFitsImage` for every extent that the start
values of the bounds do not violate: the loop never runs. -/
theorem meshFitsImage_single (msh : Mesh) (xDim yDim : ℚ × ℚ) (hn : msh.getNNodes ≤ 1)
    (hx1 : xDim.1 ≤ DBL_MAX) (hx2 : DBL_MIN ≤ xDim.2) (hy1 : yDim.1 ≤ DBL_MAX)
    (hy2 : DBL_MIN ≤ yDim.2) : meshFitsImage msh xDim yDim = .ok true := by
  have hb : forRange (scanNode msh.nodes) 1 msh.getNNodes ⟨DBL_MAX, DBL_MAX, DBL_MIN, DBL_MIN⟩
      = .ok ⟨DBL_MAX, DBL_MAX, DBL_MIN, DBL_MIN⟩ := by
    have : msh.getNNodes - 1 = 0 := by omega
    simp only [forRange, this, forLoop]
  rw [meshFitsImage_eq _ _ _ _ hb, if_neg]
  rintro (h | h | h | h) <;> simp only at h <;> linarith

/-- The cell index of a cell centre. -/
theorem floor_centre (c : Nat) : ⌊(c : ℚ) + 1 / 2⌋ = (c : Int) := by
  rw [Int.floor_eq_iff]
  push_cast
  constructor <;> linarith

/-- Conversion of a cell index to `size_t`. -/
theorem toSizeT_natCast (c : Nat) (h : c < SIZE_MOD) : toSizeT (c : Int) = .ok c := by
  have h1 : (0 : Int) ≤ c := Int.natCast_nonneg c
  have h2 : (c : Int) < (SIZE_MOD : Int) := by exact_mod_cast h
  simp only [toSizeT, if_pos (And.intro h1 h2), Int.toNat_ofNat]

/-- A node at the centre of the cell `(cx, cy)` of a raster of cell size 1 at the origin
receives the value of that cell: both offsets are 0, the stencil is the cell itself and the
weights are 1, 0, 0, 0. -/
theorem mapNode_cellCentre (r : Raster) (hd : r.delta = 1) (hx0 : r.x0 = 0) (hy0 : r.y0 = 0)
    (i : Nat) (nodes : List (Option Node)) (nd : List Nat) (coords : Node) (cx cy : Nat)
    (hcx : coords.x = cx + 1 / 2) (hcy : coords.y = cy + 1 / 2) (hbx : cx < SIZE_MOD)
    (hby : cy < SIZE_MOD) (hi : nodes.get? i = some (some coords)) (v : ℚ)
    (hv : r.elevation.get? ((2 * (cy * r.width + cx)) % SIZE_MOD) = some v)
    (hvalid : |v + 9999| > DBL_MIN) :
    mapNode r i (nodes, nd) = .ok (nodes.set i (some ⟨coords.x, coords.y, v, coords.id⟩), nd) := by
  have hlt : i < nodes.length := by
    by_contra hc
    rw [List.get?_eq_getElem?, List.getElem?_eq_none (not_lt.mp hc)] at hi
    cases hi
  have hnb : neighbourValue r.elevation r.width cx cy 0 0 v = .ok v := by
    rw [neighbourValue_ok_iff]
    exact ⟨v, by simpa using hv, by
      unfold substituteNoData
      rw [if_neg (not_lt.mpr (le_of_lt hvalid))]⟩
  refine (mapNode_interpolated r i nodes nd coords (cx + 1 / 2) (cy + 1 / 2) 0 0 cx cy 0 0
    v v v v ?_ ?_ ?_ ?_ ?_ ?_ ?_ ?_ ?_ ?_ hvalid ?_ ?_ ?_).trans ?_
  · rw [vecGet_ok_iff]; exact hi
  · simp [fdiv, hd, hx0, hcx]
  · simp [fdiv, hd, hy0, hcy]
  · rw [floor_centre, toSizeT_natCast _ hbx]
  · rw [floor_centre, toSizeT_natCast _ hby]
  · simp [fdiv, hd]
  · simp [fdiv, hd]
  · simp [toInt_zero]
  · simp [toInt_zero]
  · rw [vecGet_ok_iff]; exact hv
  · rw [intToSizeT_zero]; exact hnb
  · rw [intToSizeT_zero]; exact hnb
  · rw [intToSizeT_zero]; exact hnb
  · have hz : (List.foldl (fun z t => z + t) 0 (List.zipWith (fun o l => o * l)
        (MPhi2D (1 - |0|) (1 - |0|)) [v, v, v, v])) = v := by
      simp [MPhi2D]
      ring
    rw [hz]
    simp [vecSet, hlt, Node.updateCoordinates, Except.map]

/-- A returned value is passed on to the next step. -/
theorem ok_bind {α β : Type} (a : α) (f : α → Except Fault β) :
    ((Except.ok a : Except Fault α) >>= f) = f a := rfl

/-- A fault ends the computation. -/
theorem error_bind {α β : Type} (e : Fault) (f : α → Except Fault β) :
    ((Except.error e : Except Fault α) >>= f) = .error e := rfl

/-- A range of three indices runs the body three times. -/
theorem forRange_three {σ : Type} (body : Nat → σ → Except Fault σ) (first : Nat) (s : σ) :
    forRange body first (first + 3) s
      = body first s >>= body (first + 1) >>= body (first + 2) := by
  simp only [forRange, Nat.add_sub_cancel_left, forLoop, bind, Except.bind, Nat.add_zero]

/-- The position of a node, every intermediate result named. -/
theorem locate_eq (r : Raster) (coords : Node) (xPos yPos xShift yShift : ℚ) (xIdx yIdx : Nat)
    (xShiftIdx yShiftIdx : Int)
    (hx : fdiv (coords.x - r.x0) r.delta = .ok xPos)
    (hy : fdiv (coords.y - r.y0) r.delta = .ok yPos)
    (hxi : toSizeT ⌊xPos⌋ = .ok xIdx) (hyi : toSizeT ⌊yPos⌋ = .ok yIdx)
    (hxs : fdiv (xPos - xIdx - 1 / 2 * r.delta) (1 / 2 * r.delta) = .ok xShift)
    (hys : fdiv (yPos - yIdx - 1 / 2 * r.delta) (1 / 2 * r.delta) = .ok yShift)
    (hxsi : toInt (if xShift ≥ 0 then ⌈xShift⌉ else ⌊xShift⌋) = .ok xShiftIdx)
    (hysi : toInt (if yShift ≥ 0 then ⌈yShift⌉ else ⌊yShift⌋) = .ok yShiftIdx) :
    locate r coords = .ok ⟨xIdx, yIdx, xShift, yShift, xShiftIdx, yShiftIdx⟩ := by
  simp only [locate, bind, Except.bind, hx, hy, hxi, hyi, hxs, hys, hxsi, hysi, pure,
    Except.pure]

/-- The loop body of `LayerMapping` after the node is found and located: the read of the
own cell at `stencilIndex r p 0` comes first, and a fault of that read is the fault of the
iteration. -/
theorem mapNode_own_fault (r : Raster) (i : Nat) (nodes : List (Option Node))
    (nd : List Nat) (coords : Node) (p : CellPos) (e : Fault)
    (hc : nodes.get? i = some (some coords)) (hloc : locate r coords = .ok p)
    (h0 : vecGet r.elevation (stencilIndex r p 0) = .error e) :
    mapNode r i (nodes, nd) = .error e := by
  unfold locate at hloc
  simp only [bind_ok_iff] at hloc
  obtain ⟨xPos, hx, yPos, hy, xIdx, hxi, yIdx, hyi, xShift, hxs, yShift, hys, xShiftIdx, hxsi,
    yShiftIdx, hysi, hp⟩ := hloc
  cases hp
  have h0' : vecGet r.elevation ((2 * (yIdx * r.width + xIdx)) % SIZE_MOD) = .error e := by
    simpa [stencilIndex] using h0
  have hc' : vecGet nodes i = .ok (some coords) := (vecGet_ok_iff _ _ _).mpr hc
  simp only [mapNode, bind, Except.bind, hc', deref, hx, hy, hxi, hyi, hxs, hys, hxsi, hysi,
    h0']

/-- With no layer below the surface the node loop runs over all nodes. -/
theorem range_all (nNodes : Nat) (hN : nNodes < SIZE_MOD) :
    firstNode nNodes 0 0 = 0 ∧ lastNode nNodes 0 0 = nNodes := by
  have h1 : (0 + 1) % SIZE_MOD = 1 := by simp [SIZE_MOD]
  have hf : firstNode nNodes 0 0 = 0 := by
    simp [firstNode]
  refine ⟨hf, ?_⟩
  unfold lastNode
  rw [hf]
  unfold nodesPerLayer
  rw [h1, Nat.div_one, Nat.zero_add, Nat.mod_eq_of_lt hN]

/-- A call on the single layer of a surface mesh that the extent check accepts, given the
result of its node loop. -/
theorem LayerMapping_whole (removeMeshNodes : Mesh → List Nat → Option Mesh) (mesh : Mesh)
    (r : Raster) (removeNoDataValues : Bool) (s : List (Option Node) × List Nat)
    (hN : mesh.getNNodes < SIZE_MOD)
    (hf : meshFitsImage mesh (r.x0, r.x0 + r.width * r.delta)
      (r.y0, r.y0 + r.height * r.delta) = .ok true)
    (hloop : forRange (mapNode r) 0 mesh.getNNodes (mesh.nodes, []) = .ok s) :
    LayerMapping removeMeshNodes (some mesh) (some r) 0 0 removeNoDataValues =
      .ok (removalStep removeMeshNodes { mesh with nodes := s.1 } mesh.getNNodes 0
        removeNoDataValues s.2) := by
  rw [LayerMapping_fits _ _ _ _ _ _ true (le_refl _) hf, if_pos rfl]
  apply mapLayer_of_loop
  · simp [SIZE_MOD]
  · rw [(range_all _ hN).1, (range_all _ hN).2]
    exact hloop

/-- A call on the single layer of a surface mesh that the extent check accepts, when its
node loop ends in a fault. -/
theorem LayerMapping_whole_fault (removeMeshNodes : Mesh → List Nat → Option Mesh)
    (mesh : Mesh) (r : Raster) (removeNoDataValues : Bool) (e : Fault)
    (hN : mesh.getNNodes < SIZE_MOD)
    (hf : meshFitsImage mesh (r.x0, r.x0 + r.width * r.delta)
      (r.y0, r.y0 + r.height * r.delta) = .ok true)
    (hloop : forRange (mapNode r) 0 mesh.getNNodes (mesh.nodes, []) = .error e) :
    LayerMapping removeMeshNodes (some mesh) (some r) 0 0 removeNoDataValues = .error e := by
  rw [LayerMapping_fits _ _ _ _ _ _ true (le_refl _) hf, if_pos rfl]
  have h1 : (0 + 1) % SIZE_MOD = 1 := by simp [SIZE_MOD]
  have hdiv : sizeDiv mesh.getNNodes ((0 + 1) % SIZE_MOD) = .ok mesh.getNNodes := by
    rw [h1]
    simp [sizeDiv]
  have hfirst : (0 * mesh.getNNodes) % SIZE_MOD = 0 := by simp
  have hlast : (0 + mesh.getNNodes) % SIZE_MOD = mesh.getNNodes := by
    rw [Nat.zero_add, Nat.mod_eq_of_lt hN]
  simp only [mapLayer, hdiv, bind, Except.bind, hfirst, hlast, hloop]

/-- A non-negative elevation is not the NoData value. -/
theorem valid_of_nonneg (v : ℚ) (hv : 0 ≤ v) : |v + 9999| > DBL_MIN := by
  have h2 := DBL_MIN_lt_one
  rw [abs_of_pos (by linarith)]
  linarith

/-- The extent of `grid2` is the square [0,2] x [0,2]. -/
theorem grid2_extent :
    (grid2.x0, grid2.x0 + (grid2.width : ℚ) * grid2.delta) = (0, 2) ∧
    (grid2.y0, grid2.y0 + (grid2.height : ℚ) * grid2.delta) = (0, 2) := by
  simp [grid2]

/-- The extent check accepts the nodes `centreNodes` for the extent of `grid2`. -/
theorem meshFitsImage_centreNodes (msh : Mesh) (h : msh.nodes = centreNodes) :
    meshFitsImage msh (0, 2) (0, 2) = .ok true := by
  have h1 := DBL_MIN_lt_one
  have h2 := five_lt_DBL_MAX
  have hb : forRange (scanNode msh.nodes) 1 msh.getNNodes
      ⟨DBL_MAX, DBL_MAX, DBL_MIN, DBL_MIN⟩ = .ok ⟨1 / 2, 1 / 2, DBL_MIN, 3 / 2⟩ := by
    have : msh.getNNodes = 1 + 2 := by rw [Mesh.getNNodes, h]; rfl
    rw [this, forRange_two, h, scanNode_eq centreNodes 1 _ ⟨3 / 2, 1 / 2, 0, 1⟩ rfl,
      updateBounds_first, ok_bind, scanNode_eq centreNodes (1 + 1) _ ⟨1 / 2, 3 / 2, 0, 2⟩ rfl]
    · have e1 : (3 / 2 : ℚ) > 1 / 2 := by norm_num
      have e2 : ¬ ((1 / 2 : ℚ) > 3 / 2) := by norm_num
      have e3 : DBL_MIN < (3 / 2 : ℚ) := by linarith
      simp only [updateBounds, if_pos e1, if_neg e2, if_pos e3]
    · show (3 / 2 : ℚ) < DBL_MAX
      linarith
    · show (1 / 2 : ℚ) < DBL_MAX
      linarith
  rw [meshFitsImage_eq _ _ _ _ hb, if_neg]
  rintro (h | h | h | h) <;> simp only at h <;> linarith

/-- The node loop over `centreNodes` on `grid2` gives the three nodes the values 1, 2, 3 of
their cells and records no NoData node. -/
theorem mapLoop_centreNodes :
    forRange (mapNode grid2) 0 3 (centreNodes, []) = .ok (mappedCentres, []) := by
  have hM : (2 : Nat) < SIZE_MOD := by unfold SIZE_MOD; omega
  have s0 : mapNode grid2 0 (centreNodes, []) =
      .ok ([some ⟨1 / 2, 1 / 2, 1, 0⟩, some ⟨3 / 2, 1 / 2, 0, 1⟩, some ⟨1 / 2, 3 / 2, 0, 2⟩],
        []) :=
    mapNode_cellCentre grid2 rfl rfl rfl 0 centreNodes [] ⟨1 / 2, 1 / 2, 0, 0⟩ 0 0
      (by norm_num) (by norm_num) (by omega) (by omega) rfl 1
      (by simp [grid2, SIZE_MOD]) (valid_of_nonneg 1 (by norm_num))
  have s1 : mapNode grid2 (0 + 1)
      ([some ⟨1 / 2, 1 / 2, 1, 0⟩, some ⟨3 / 2, 1 / 2, 0, 1⟩, some ⟨1 / 2, 3 / 2, 0, 2⟩], []) =
      .ok ([some ⟨1 / 2, 1 / 2, 1, 0⟩, some ⟨3 / 2, 1 / 2, 2, 1⟩, some ⟨1 / 2, 3 / 2, 0, 2⟩],
        []) :=
    mapNode_cellCentre grid2 rfl rfl rfl (0 + 1)
      [some ⟨1 / 2, 1 / 2, 1, 0⟩, some ⟨3 / 2, 1 / 2, 0, 1⟩, some ⟨1 / 2, 3 / 2, 0, 2⟩] []
      ⟨3 / 2, 1 / 2, 0, 1⟩ 1 0
      (by norm_num) (by norm_num) (by omega) (by omega) rfl 2
      (by simp [grid2, SIZE_MOD]) (valid_of_nonneg 2 (by norm_num))
  have s2 : mapNode grid2 (0 + 2)
      ([some ⟨1 / 2, 1 / 2, 1, 0⟩, some ⟨3 / 2, 1 / 2, 2, 1⟩, some ⟨1 / 2, 3 / 2, 0, 2⟩], []) =
      .ok ([some ⟨1 / 2, 1 / 2, 1, 0⟩, some ⟨3 / 2, 1 / 2, 2, 1⟩, some ⟨1 / 2, 3 / 2, 3, 2⟩],
        []) :=
    mapNode_cellCentre grid2 rfl rfl rfl (0 + 2)
      [some ⟨1 / 2, 1 / 2, 1, 0⟩, some ⟨3 / 2, 1 / 2, 2, 1⟩, some ⟨1 / 2, 3 / 2, 0, 2⟩] []
      ⟨1 / 2, 3 / 2, 0, 2⟩ 0 1
      (by norm_num) (by norm_num) (by omega) (by omega) rfl 3
      (by simp [grid2, SIZE_MOD]) (valid_of_nonneg 3 (by norm_num))
  have h3 : (3 : Nat) = 0 + 3 := rfl
  rw [h3, forRange_three, s0, ok_bind, s1, ok_bind, s2]
  rfl

/-- The removal step once it is reached (single layer, removal requested, fewer recorded
indices than `nNodes - 2`): the mesh editor's result is adopted, and the passed mesh
deleted, exactly when the passed mesh has no element. -/
theorem removalStep_reached (removeMeshNodes : Mesh → List Nat → Option Mesh) (mapped : Mesh)
    (nNodes : Nat) (noData_nodes : List Nat)
    (hcount : (noData_nodes.length : Int) < ((nNodes : Int) - 2) % (SIZE_MOD : Int)) :
    removalStep removeMeshNodes mapped nNodes 0 true noData_nodes =
      if mapped.getNElements = 0 then
        ⟨1, some mapped, true, removeMeshNodes mapped noData_nodes, noData_nodes⟩
      else ⟨1, some mapped, false, some mapped, noData_nodes⟩ := by
  unfold removalStep
  rw [if_pos ⟨rfl, rfl⟩, if_pos hcount]

/-- The run of `LayerMapping` with a mesh editor on a mesh over `centreNodes`. -/
theorem LayerMapping_centreNodes (removeMeshNodes : Mesh → List Nat → Option Mesh)
    (msh : Mesh) (h : msh.nodes = centreNodes) :
    LayerMapping removeMeshNodes (some msh) (some grid2) 0 0 true =
      .ok (if msh.elems.length = 0 then
        ⟨1, some { msh with nodes := mappedCentres }, true,
          removeMeshNodes { msh with nodes := mappedCentres } [], []⟩
      else
        ⟨1, some { msh with nodes := mappedCentres }, false,
          some { msh with nodes := mappedCentres }, []⟩) := by
  have hn : msh.getNNodes = 3 := by rw [Mesh.getNNodes, h]; rfl
  have hf : meshFitsImage msh (grid2.x0, grid2.x0 + (grid2.width : ℚ) * grid2.delta)
      (grid2.y0, grid2.y0 + (grid2.height : ℚ) * grid2.delta) = .ok true := by
    rw [grid2_extent.1, grid2_extent.2]
    exact meshFitsImage_centreNodes msh h
  have hloop : forRange (mapNode grid2) 0 msh.getNNodes (msh.nodes, []) =
      .ok (mappedCentres, []) := by
    rw [hn, h]
    exact mapLoop_centreNodes
  rw [LayerMapping_whole removeMeshNodes msh grid2 true _ (by rw [hn]; unfold SIZE_MOD; omega)
    hf hloop, removalStep_reached _ _ _ _ (by rw [hn]; simp [SIZE_MOD])]
  rfl

/-- C13 (code defect): on the one-triangle mesh `cellTri` the removal step is reached with
no NoData node and the mesh editor hands back a mesh with one element, yet the passed mesh
is kept; on the element-free mesh `cellPoints` the editor's result has no element, yet it
replaces the passed mesh, which is deleted. The test at line 192 reads the element count of
the passed mesh, and adopts on 0, where the claim reads that of the reduced mesh and adopts
on at least one element. -/
theorem NoData_removal_tests_passed_mesh :
    (LayerMapping reducedCopy (some cellTri) (some grid2) 0 0 true =
        .ok ⟨1, some { cellTri with nodes := mappedCentres }, false,
          some { cellTri with nodes := mappedCentres }, []⟩ ∧
      (reducedCopy { cellTri with nodes := mappedCentres } []).map Mesh.getNElements
        = some 1) ∧
    (LayerMapping reducedCopy (some cellPoints) (some grid2) 0 0 true =
        .ok ⟨1, some { cellPoints with nodes := mappedCentres }, true,
          some { cellPoints with nodes := mappedCentres, name := "reduced" }, []⟩ ∧
      (reducedCopy { cellPoints with nodes := mappedCentres } []).map Mesh.getNElements
        = some 0) := by
  refine ⟨⟨?_, rfl⟩, ⟨?_, rfl⟩⟩
  · rw [LayerMapping_centreNodes reducedCopy cellTri rfl, if_neg (by decide)]
  · rw [LayerMapping_centreNodes reducedCopy cellPoints rfl, if_pos (by decide)]
    rfl

/-- The floor of a value in [0, 1). -/
theorem floor_unit (q : ℚ) (h0 : 0 ≤ q) (h1 : q < 1) : ⌊q⌋ = 0 := by
  rw [Int.floor_eq_iff]
  constructor <;> push_cast <;> linarith

/-- A neighbour read of a value that is not NoData yields that value. -/
theorem neighbourValue_eq (elevation : List ℚ) (width xIdx yIdx x_nb y_nb : Nat)
    (locZ0 v : ℚ)
    (hget : elevation.get? ((2 * ((yIdx + y_nb) * width + (xIdx + x_nb))) % SIZE_MOD) = some v)
    (hvalid : |v + 9999| > DBL_MIN) :
    neighbourValue elevation width xIdx yIdx x_nb y_nb locZ0 = .ok v := by
  rw [neighbourValue_ok_iff]
  refine ⟨v, hget, ?_⟩
  unfold substituteNoData
  rw [if_neg (not_lt.mpr (le_of_lt hvalid))]

/-- Conversion of small integers. -/
theorem conversions :
    toInt 1 = .ok 1 ∧ toInt 3 = .ok 3 ∧ toInt (-1) = .ok (-1) ∧ intToSizeT 1 = 1 ∧
    intToSizeT 3 = 3 ∧ intToSizeT (-1) = 18446744073709551615 ∧ toSizeT 1 = .ok 1 ∧
    toSizeT 2 = .ok 2 := by
  refine ⟨?_, ?_, ?_, ?_, ?_, ?_, ?_, ?_⟩ <;> simp [toInt, intToSizeT, toSizeT, SIZE_MOD]

/-- The extent check accepts `offCentre` for the extent of `grid2`. -/
theorem meshFitsImage_offCentre : meshFitsImage offCentre (0, 2) (0, 2) = .ok true := by
  have h1 := DBL_MIN_lt_one
  have h2 := five_lt_DBL_MAX
  have hb : forRange (scanNode offCentre.nodes) 1 offCentre.getNNodes
      ⟨DBL_MAX, DBL_MAX, DBL_MIN, DBL_MIN⟩ = .ok ⟨1 / 2, 3 / 4, DBL_MIN, DBL_MIN⟩ := by
    have : offCentre.getNNodes = 1 + 1 := rfl
    rw [this, forRange_one, scanNode_eq offCentre.nodes 1 _ ⟨1 / 2, 3 / 4, 0, 1⟩ rfl,
      updateBounds_first]
    · show (1 / 2 : ℚ) < DBL_MAX
      linarith
    · show (3 / 4 : ℚ) < DBL_MAX
      linarith
  rw [meshFitsImage_eq _ _ _ _ hb, if_neg]
  rintro (h | h | h | h) <;> simp only at h <;> linarith

/-- The position of the node (1/2, 3/4) in `grid2`: cell (0,0), no offset along x, offset
1/2 along y, neighbour row 1. -/
theorem locate_offCentre (id : Nat) :
    locate grid2 ⟨1 / 2, 3 / 4, 0, id⟩ = .ok ⟨0, 0, 0, 1 / 2, 0, 1⟩ := by
  have hc : ⌈(1 / 2 : ℚ)⌉ = 1 := by
    rw [Int.ceil_eq_iff]; norm_num
  apply locate_eq grid2 _ (1 / 2) (3 / 4)
  · simp [fdiv, grid2]
  · simp [fdiv, grid2]
  · rw [floor_unit _ (by norm_num) (by norm_num), toSizeT_zero]
  · rw [floor_unit _ (by norm_num) (by norm_num), toSizeT_zero]
  · simp [fdiv, grid2]
  · simp only [fdiv, grid2]
    norm_num
  · simp [toInt_zero]
  · rw [if_pos (by norm_num), hc, conversions.1]

/-- The four values `LayerMapping` reads for the node (1/2, 3/4) in `grid2`. -/
theorem stencil_offCentre :
    [0, 1, 2, 3].map (fun j => grid2.elevation.get? (stencilIndex grid2 ⟨0, 0, 0, 1 / 2, 0, 1⟩ j))
      = [some 1, some 1, some 3, some 3] := by
  simp [stencilIndex, grid2, intToSizeT_zero, conversions.2.2.2.1, SIZE_MOD]

/-- The node (1/2, 3/4) of `grid2` is mapped to z = 1: with no offset along x both
arguments of the shape functions are 1 and the whole weight lies on the own cell. -/
theorem mapNode_offCentre (a : Option Node) :
    mapNode grid2 (0 + 1) ([a, some ⟨1 / 2, 3 / 4, 0, 1⟩], []) =
      .ok ([a, some ⟨1 / 2, 3 / 4, 1, 1⟩], []) := by
  have hloc := locate_offCentre 1
  unfold locate at hloc
  simp only [bind_ok_iff] at hloc
  obtain ⟨xPos, hx, yPos, hy, xIdx, hxi, yIdx, hyi, xShift, hxs, yShift, hys, xShiftIdx, hxsi,
    yShiftIdx, hysi, hp⟩ := hloc
  simp only [pure, Except.pure, Except.ok.injEq, CellPos.mk.injEq] at hp
  obtain ⟨h1, h2, h3, h4, h5, h6⟩ := hp
  subst h1 h2 h3 h4 h5 h6
  refine (mapNode_interpolated grid2 (0 + 1) _ [] ⟨1 / 2, 3 / 4, 0, 1⟩ xPos yPos 0 (1 / 2) 0 0
    0 1 1 1 3 3 ?_ hx hy hxi hyi hxs hys hxsi hysi ?_ (valid_of_nonneg 1 (by norm_num))
    ?_ ?_ ?_).trans ?_
  · simp [vecGet]
  · simp [vecGet, grid2, SIZE_MOD]
  · rw [intToSizeT_zero]
    exact neighbourValue_eq _ _ _ _ _ _ _ _ (by simp [grid2, SIZE_MOD])
      (valid_of_nonneg 1 (by norm_num))
  · rw [intToSizeT_zero, conversions.2.2.2.1]
    exact neighbourValue_eq _ _ _ _ _ _ _ _ (by simp [grid2, SIZE_MOD])
      (valid_of_nonneg 3 (by norm_num))
  · rw [conversions.2.2.2.1]
    exact neighbourValue_eq _ _ _ _ _ _ _ _ (by simp [grid2, SIZE_MOD])
      (valid_of_nonneg 3 (by norm_num))
  · have hz : (List.foldl (fun z t => z + t) 0 (List.zipWith (fun o l => o * l)
        (MPhi2D (1 - |0|) (1 - |0|)) [1, 1, 3, 3])) = (1 : ℚ) := by
      norm_num [MPhi2D]
    rw [hz]
    simp [vecSet, Node.updateCoordinates, Except.map]

/-- The run of `LayerMapping` on `offCentre` over `grid2`: both nodes receive z = 1. -/
theorem LayerMapping_offCentre :
    LayerMapping keepMesh (some offCentre) (some grid2) 0 0 false =
      .ok ⟨1, some { offCentre with
          nodes := [some ⟨1 / 2, 1 / 2, 1, 0⟩, some ⟨1 / 2, 3 / 4, 1, 1⟩] }, false,
        some { offCentre with
          nodes := [some ⟨1 / 2, 1 / 2, 1, 0⟩, some ⟨1 / 2, 3 / 4, 1, 1⟩] }, []⟩ := by
  have hf : meshFitsImage offCentre (grid2.x0, grid2.x0 + (grid2.width : ℚ) * grid2.delta)
      (grid2.y0, grid2.y0 + (grid2.height : ℚ) * grid2.delta) = .ok true := by
    rw [grid2_extent.1, grid2_extent.2]
    exact meshFitsImage_offCentre
  have s0 : mapNode grid2 0 (offCentre.nodes, []) =
      .ok ([some ⟨1 / 2, 1 / 2, 1, 0⟩, some ⟨1 / 2, 3 / 4, 0, 1⟩], []) :=
    mapNode_cellCentre grid2 rfl rfl rfl 0 offCentre.nodes [] ⟨1 / 2, 1 / 2, 0, 0⟩ 0 0
      (by norm_num) (by norm_num) (by unfold SIZE_MOD; omega) (by unfold SIZE_MOD; omega) rfl 1
      (by simp [grid2, SIZE_MOD]) (valid_of_nonneg 1 (by norm_num))
  have hloop : forRange (mapNode grid2) 0 offCentre.getNNodes (offCentre.nodes, []) =
      .ok ([some ⟨1 / 2, 1 / 2, 1, 0⟩, some ⟨1 / 2, 3 / 4, 1, 1⟩], []) := by
    have : offCentre.getNNodes = 0 + 2 := rfl
    rw [this, forRange_two, s0, ok_bind]
    exact mapNode_offCentre _
  rw [LayerMapping_whole keepMesh offCentre grid2 false _
    (by show (2 : Nat) < SIZE_MOD; unfold SIZE_MOD; omega) hf hloop]
  rfl

/-- C14 (code defect): the nodes (1/2, 1/2) and (1/2, 3/4) of `offCentre` lie in the same
cell of `grid2` with the same x offset 0 and the y offsets 0 and 1/2. `LayerMapping` gives
both z = 1: for the second node, with the stencil values 1, 1, 3, 3, the code's weights are
those at (1 - |xShift|, 1 - |xShift|) = (1, 1), namely 1, 0, 0, 0, the same as for the
first node, where the claim evaluates the shape functions at (1 - |xShift|, 1 - |yShift|)
= (1, 1/2), weights 3/4, 0, 0, 1/4, and z = 3/2. -/
theorem LayerMapping_weights_ignore_yShift :
    LayerMapping keepMesh (some offCentre) (some grid2) 0 0 false =
      .ok ⟨1, some { offCentre with
          nodes := [some ⟨1 / 2, 1 / 2, 1, 0⟩, some ⟨1 / 2, 3 / 4, 1, 1⟩] }, false,
        some { offCentre with
          nodes := [some ⟨1 / 2, 1 / 2, 1, 0⟩, some ⟨1 / 2, 3 / 4, 1, 1⟩] }, []⟩ ∧
    locate grid2 ⟨1 / 2, 3 / 4, 0, 1⟩ = .ok ⟨0, 0, 0, 1 / 2, 0, 1⟩ ∧
    [0, 1, 2, 3].map (fun j => grid2.elevation.get? (stencilIndex grid2 ⟨0, 0, 0, 1 / 2, 0, 1⟩ j))
      = [some 1, some 1, some 3, some 3] ∧
    interpolate 0 [1, 1, 3, 3] = 1 ∧ interpolateClaimed 0 (1 / 2) [1, 1, 3, 3] = 3 / 2 ∧
    MPhi2D (1 - |(0 : ℚ)|) (1 - |(0 : ℚ)|) = [1, 0, 0, 0] ∧
    MPhi2D (1 - |(0 : ℚ)|) (1 - |(1 / 2 : ℚ)|) = [3 / 4, 0, 0, 1 / 4] := by
  refine ⟨LayerMapping_offCentre, locate_offCentre 1, stencil_offCentre, ?_, ?_, ?_, ?_⟩
  · norm_num [interpolate, MPhi2D]
  · norm_num [interpolateClaimed, MPhi2D, abs_of_pos]
  · norm_num [MPhi2D]
  · norm_num [MPhi2D, abs_of_pos]

/-- The extent of `fineRaster` is [0,2] x [0,1/2]. -/
theorem fineRaster_extent :
    (fineRaster.x0, fineRaster.x0 + (fineRaster.width : ℚ) * fineRaster.delta) = (0, 2) ∧
    (fineRaster.y0, fineRaster.y0 + (fineRaster.height : ℚ) * fineRaster.delta)
      = (0, 1 / 2) := by
  constructor <;> norm_num [fineRaster]

/-- The position of the node (7/16, 1/8) in `fineRaster`: cell (0,0), x offset 5/2 and
neighbour column 3, although the node lies inside the cell. -/
theorem locate_fine : locate fineRaster ⟨7 / 16, 1 / 8, 0, 0⟩ = .ok ⟨0, 0, 5 / 2, 0, 3, 0⟩ := by
  have hc : ⌈(5 / 2 : ℚ)⌉ = 3 := by
    rw [Int.ceil_eq_iff]; norm_num
  apply locate_eq fineRaster _ (7 / 8) (1 / 4)
  · simp only [fdiv, fineRaster]; norm_num
  · simp only [fdiv, fineRaster]; norm_num
  · rw [floor_unit _ (by norm_num) (by norm_num), toSizeT_zero]
  · rw [floor_unit _ (by norm_num) (by norm_num), toSizeT_zero]
  · simp only [fdiv, fineRaster]; norm_num
  · simp only [fdiv, fineRaster]; norm_num
  · rw [if_pos (by norm_num), hc, conversions.2.1]
  · simp [toInt_zero]

/-- The four values `LayerMapping` reads for the node (7/16, 1/8) in `fineRaster`. -/
theorem stencil_fine :
    [0, 1, 2, 3].map (fun j =>
      fineRaster.elevation.get? (stencilIndex fineRaster ⟨0, 0, 5 / 2, 0, 3, 0⟩ j))
      = [some 0, some 4, some 4, some 0] := by
  simp [stencilIndex, fineRaster, intToSizeT_zero, conversions.2.2.2.2.1, SIZE_MOD]

/-- The node (7/16, 1/8) of `fineRaster` is mapped to z = 5. -/
theorem mapNode_fine :
    mapNode fineRaster 0 (fineMesh.nodes, []) = .ok ([some ⟨7 / 16, 1 / 8, 5, 0⟩], []) := by
  have hloc := locate_fine
  unfold locate at hloc
  simp only [bind_ok_iff] at hloc
  obtain ⟨xPos, hx, yPos, hy, xIdx, hxi, yIdx, hyi, xShift, hxs, yShift, hys, xShiftIdx, hxsi,
    yShiftIdx, hysi, hp⟩ := hloc
  simp only [pure, Except.pure, Except.ok.injEq, CellPos.mk.injEq] at hp
  obtain ⟨h1, h2, h3, h4, h5, h6⟩ := hp
  subst h1 h2 h3 h4 h5 h6
  refine (mapNode_interpolated fineRaster 0 fineMesh.nodes [] ⟨7 / 16, 1 / 8, 0, 0⟩ xPos yPos
    (5 / 2) 0 0 0 3 0 0 4 4 0 ?_ hx hy hxi hyi hxs hys hxsi hysi ?_
    (valid_of_nonneg 0 (le_refl _)) ?_ ?_ ?_).trans ?_
  · simp [vecGet, fineMesh]
  · simp [vecGet, fineRaster, SIZE_MOD]
  · rw [conversions.2.2.2.2.1]
    exact neighbourValue_eq _ _ _ _ _ _ _ _ (by simp [fineRaster, SIZE_MOD])
      (valid_of_nonneg 4 (by norm_num))
  · rw [intToSizeT_zero, conversions.2.2.2.2.1]
    exact neighbourValue_eq _ _ _ _ _ _ _ _ (by simp [fineRaster, SIZE_MOD])
      (valid_of_nonneg 4 (by norm_num))
  · rw [intToSizeT_zero]
    exact neighbourValue_eq _ _ _ _ _ _ _ _ (by simp [fineRaster, SIZE_MOD])
      (valid_of_nonneg 0 (le_refl _))
  · have hz : (List.foldl (fun z t => z + t) 0 (List.zipWith (fun o l => o * l)
        (MPhi2D (1 - |5 / 2|) (1 - |5 / 2|)) [0, 4, 4, 0])) = (5 : ℚ) := by
      rw [abs_of_pos (by norm_num : (0 : ℚ) < 5 / 2)]
      norm_num [MPhi2D]
    rw [hz]
    simp [vecSet, fineMesh, Node.updateCoordinates, Except.map]

/-- The run of `LayerMapping` on `fineMesh` over `fineRaster`. -/
theorem LayerMapping_fine :
    LayerMapping keepMesh (some fineMesh) (some fineRaster) 0 0 false =
      .ok ⟨1, some { fineMesh with nodes := [some ⟨7 / 16, 1 / 8, 5, 0⟩] }, false,
        some { fineMesh with nodes := [some ⟨7 / 16, 1 / 8, 5, 0⟩] }, []⟩ := by
  have h1 := DBL_MIN_lt_half
  have h2 := five_lt_DBL_MAX
  have hf : meshFitsImage fineMesh
      (fineRaster.x0, fineRaster.x0 + (fineRaster.width : ℚ) * fineRaster.delta)
      (fineRaster.y0, fineRaster.y0 + (fineRaster.height : ℚ) * fineRaster.delta)
      = .ok true := by
    rw [fineRaster_extent.1, fineRaster_extent.2]
    apply meshFitsImage_single fineMesh _ _ (le_refl _) <;> simp only <;> linarith
  have hloop : forRange (mapNode fineRaster) 0 fineMesh.getNNodes (fineMesh.nodes, []) =
      .ok ([some ⟨7 / 16, 1 / 8, 5, 0⟩], []) := by
    have : fineMesh.getNNodes = 0 + 1 := rfl
    rw [this, forRange_one]
    exact mapNode_fine
  rw [LayerMapping_whole keepMesh fineMesh fineRaster false _
    (by show (1 : Nat) < SIZE_MOD; unfold SIZE_MOD; omega) hf hloop]
  rfl

/-- C11 (code defect): `fineRaster` has the positive cell size 1/2, no NoData cell, and an
extent [0,2] x [0,1/2] that strictly contains the only node (7/16, 1/8) of `fineMesh`. The
call returns 1 and records no NoData node, but the node's new z is 5 while the four values
of its stencil are 0, 4, 4, 0: the offset of line 142 subtracts `delta / 2` from a position
already divided by `delta`, so the normalised offset is 5/2 instead of a value in [-1, 1),
and two of the weights are negative. -/
theorem LayerMapping_leaves_stencil_range :
    0 < fineRaster.delta ∧ (∀ v ∈ fineRaster.elevation, v ≠ -9999) ∧
    LayerMapping keepMesh (some fineMesh) (some fineRaster) 0 0 false =
      .ok ⟨1, some { fineMesh with nodes := [some ⟨7 / 16, 1 / 8, 5, 0⟩] }, false,
        some { fineMesh with nodes := [some ⟨7 / 16, 1 / 8, 5, 0⟩] }, []⟩ ∧
    locate fineRaster ⟨7 / 16, 1 / 8, 0, 0⟩ = .ok ⟨0, 0, 5 / 2, 0, 3, 0⟩ ∧
    [0, 1, 2, 3].map (fun j =>
      fineRaster.elevation.get? (stencilIndex fineRaster ⟨0, 0, 5 / 2, 0, 3, 0⟩ j))
      = [some 0, some 4, some 4, some 0] ∧
    MPhi2D (1 - |(5 / 2 : ℚ)|) (1 - |(5 / 2 : ℚ)|) = [1 / 16, -5 / 16, 25 / 16, -5 / 16] := by
  refine ⟨by norm_num [fineRaster], ?_, LayerMapping_fine, locate_fine, stencil_fine, ?_⟩
  · intro v hv
    simp only [fineRaster, List.mem_cons, List.mem_singleton, List.not_mem_nil, or_false] at hv
    rcases hv with h | h | h | h | h | h | h | h <;> subst h <;> norm_num
  · rw [abs_of_pos (by norm_num : (0 : ℚ) < 5 / 2)]
    norm_num [MPhi2D]

/-- The loop body of `LayerMapping` after the own cell held a value: the neighbour reads
follow at `stencilIndex r p 1`, `2`, `3`, and a fault of the first of them is the fault of
the iteration. -/
theorem mapNode_neighbour_fault (r : Raster) (i : Nat) (nodes : List (Option Node))
    (nd : List Nat) (coords : Node) (p : CellPos) (locZ0 : ℚ) (e : Fault)
    (hc : nodes.get? i = some (some coords)) (hloc : locate r coords = .ok p)
    (h0 : r.elevation.get? (stencilIndex r p 0) = some locZ0)
    (hv : |locZ0 + 9999| > DBL_MIN)
    (h1 : vecGet r.elevation (stencilIndex r p 1) = .error e) :
    mapNode r i (nodes, nd) = .error e := by
  unfold locate at hloc
  simp only [bind_ok_iff] at hloc
  obtain ⟨xPos, hx, yPos, hy, xIdx, hxi, yIdx, hyi, xShift, hxs, yShift, hys, xShiftIdx, hxsi,
    yShiftIdx, hysi, hp⟩ := hloc
  cases hp
  have h0' : vecGet r.elevation ((2 * (yIdx * r.width + xIdx)) % SIZE_MOD) = .ok locZ0 := by
    rw [vecGet_ok_iff]
    simpa [stencilIndex] using h0
  have h1' : vecGet r.elevation
      ((2 * ((yIdx + 0) * r.width + (xIdx + intToSizeT xShiftIdx))) % SIZE_MOD) = .error e := by
    simpa [stencilIndex] using h1
  have hc' : vecGet nodes i = .ok (some coords) := (vecGet_ok_iff _ _ _).mpr hc
  simp only [mapNode, bind, Except.bind, hc', deref, hx, hy, hxi, hyi, hxs, hys, hxsi, hysi,
    h0', if_pos hv, neighbourValue, h1']

/-- The extent check accepts `leftHalf` for the extent of `grid2`. -/
theorem meshFitsImage_leftHalf : meshFitsImage leftHalf (0, 2) (0, 2) = .ok true := by
  have h1 := DBL_MIN_lt_one
  have h2 := five_lt_DBL_MAX
  have hb : forRange (scanNode leftHalf.nodes) 1 leftHalf.getNNodes
      ⟨DBL_MAX, DBL_MAX, DBL_MIN, DBL_MIN⟩ = .ok ⟨1 / 4, 1 / 2, DBL_MIN, DBL_MIN⟩ := by
    have : leftHalf.getNNodes = 1 + 1 := rfl
    rw [this, forRange_one, scanNode_eq leftHalf.nodes 1 _ ⟨1 / 4, 1 / 2, 0, 1⟩ rfl,
      updateBounds_first]
    · show (1 / 4 : ℚ) < DBL_MAX
      linarith
    · show (1 / 2 : ℚ) < DBL_MAX
      linarith
  rw [meshFitsImage_eq _ _ _ _ hb, if_neg]
  rintro (h | h | h | h) <;> simp only at h <;> linarith

/-- The position of the node (1/4, 1/2) in `grid2`: cell (0,0), x offset -1/2, neighbour
column offset -1. -/
theorem locate_leftHalf (id : Nat) :
    locate grid2 ⟨1 / 4, 1 / 2, 0, id⟩ = .ok ⟨0, 0, -1 / 2, 0, -1, 0⟩ := by
  have hm : ⌊(-1 / 2 : ℚ)⌋ = -1 := by
    rw [Int.floor_eq_iff]; norm_num
  apply locate_eq grid2 _ (1 / 4) (1 / 2)
  · simp only [fdiv, grid2]; norm_num
  · simp [fdiv, grid2]
  · rw [floor_unit _ (by norm_num) (by norm_num), toSizeT_zero]
  · rw [floor_unit _ (by norm_num) (by norm_num), toSizeT_zero]
  · simp only [fdiv, grid2]; norm_num
  · simp only [fdiv, grid2]; norm_num
  · rw [if_neg (by norm_num), hm, conversions.2.2.1]
  · simp [toInt_zero]

/-- The index of the first neighbour read for the node (1/4, 1/2) in `grid2`: the column
offset -1 becomes the `size_t` 2^64 - 1 and the index 2 * (0 + 2^64 - 1) wraps to
2^64 - 2. -/
theorem stencilIndex_leftHalf :
    stencilIndex grid2 ⟨0, 0, -1 / 2, 0, -1, 0⟩ 1 = 18446744073709551614 := by
  simp [stencilIndex, grid2, conversions.2.2.2.2.2.1, SIZE_MOD]

/-- The run of `LayerMapping` on `leftHalf` over `grid2`: node 0 is mapped, and the
iteration of node 1 ends in the read of its first neighbour outside the array. -/
theorem LayerMapping_leftHalf :
    LayerMapping keepMesh (some leftHalf) (some grid2) 0 0 false = .error .outOfRange := by
  have hf : meshFitsImage leftHalf (grid2.x0, grid2.x0 + (grid2.width : ℚ) * grid2.delta)
      (grid2.y0, grid2.y0 + (grid2.height : ℚ) * grid2.delta) = .ok true := by
    rw [grid2_extent.1, grid2_extent.2]
    exact meshFitsImage_leftHalf
  have s0 : mapNode grid2 0 (leftHalf.nodes, []) =
      .ok ([some ⟨1 / 2, 1 / 2, 1, 0⟩, some ⟨1 / 4, 1 / 2, 0, 1⟩], []) :=
    mapNode_cellCentre grid2 rfl rfl rfl 0 leftHalf.nodes [] ⟨1 / 2, 1 / 2, 0, 0⟩ 0 0
      (by norm_num) (by norm_num) (by unfold SIZE_MOD; omega) (by unfold SIZE_MOD; omega) rfl 1
      (by simp [grid2, SIZE_MOD]) (valid_of_nonneg 1 (by norm_num))
  have s1 : mapNode grid2 (0 + 1)
      ([some ⟨1 / 2, 1 / 2, 1, 0⟩, some ⟨1 / 4, 1 / 2, 0, 1⟩], []) = .error .outOfRange := by
    apply mapNode_neighbour_fault grid2 (0 + 1)
      [some ⟨1 / 2, 1 / 2, 1, 0⟩, some ⟨1 / 4, 1 / 2, 0, 1⟩] [] ⟨1 / 4, 1 / 2, 0, 1⟩
      ⟨0, 0, -1 / 2, 0, -1, 0⟩ 1 _ rfl
      (locate_leftHalf 1) (by simp [stencilIndex, grid2, SIZE_MOD])
      (valid_of_nonneg 1 (by norm_num))
    rw [stencilIndex_leftHalf]
    unfold vecGet
    rw [List.get?_eq_getElem?, List.getElem?_eq_none (by simp [grid2])]
  apply LayerMapping_whole_fault keepMesh leftHalf grid2 false _
    (by show (2 : Nat) < SIZE_MOD; unfold SIZE_MOD; omega) hf
  have : leftHalf.getNNodes = 0 + 2 := rfl
  rw [this, forRange_two, s0, ok_bind]
  exact s1

/-- C15 (code defect): both nodes of `leftHalf` lie inside the extent [0,2] x [0,2] of
`grid2` (2 x 2 cells, two array entries per cell) and `meshFitsImage` accepts the mesh. The
node (1/4, 1/2) lies in the cell of column 0 and row 0, left of the cell centre, so its
neighbour column offset is -1. Its own cell is read at index 0, and its first neighbour at
index 2^64 - 2, which is neither below `width * height = 4` nor inside the array of 8
entries: the call ends in that read. Nothing at lines 145-158 checks that the neighbour
cell exists. -/
theorem LayerMapping_reads_outside_grid :
    (∀ p ∈ leftHalf.nodes, ∃ n, p = some n ∧ (0 : ℚ) ≤ n.x ∧ n.x ≤ 2 ∧ (0 : ℚ) ≤ n.y ∧
      n.y ≤ 2) ∧
    meshFitsImage leftHalf (grid2.x0, grid2.x0 + (grid2.width : ℚ) * grid2.delta)
      (grid2.y0, grid2.y0 + (grid2.height : ℚ) * grid2.delta) = .ok true ∧
    locate grid2 ⟨1 / 4, 1 / 2, 0, 1⟩ = .ok ⟨0, 0, -1 / 2, 0, -1, 0⟩ ∧
    stencilIndex grid2 ⟨0, 0, -1 / 2, 0, -1, 0⟩ 0 = 0 ∧
    stencilIndex grid2 ⟨0, 0, -1 / 2, 0, -1, 0⟩ 1 = 18446744073709551614 ∧
    ¬ (stencilIndex grid2 ⟨0, 0, -1 / 2, 0, -1, 0⟩ 1 < grid2.width * grid2.height) ∧
    ¬ (stencilIndex grid2 ⟨0, 0, -1 / 2, 0, -1, 0⟩ 1 < grid2.elevation.length) ∧
    LayerMapping keepMesh (some leftHalf) (some grid2) 0 0 false = .error .outOfRange := by
  refine ⟨?_, ?_, locate_leftHalf 1, ?_, stencilIndex_leftHalf, ?_, ?_, LayerMapping_leftHalf⟩
  · intro p hp
    simp only [leftHalf, List.mem_cons, List.mem_singleton, List.not_mem_nil, or_false] at hp
    rcases hp with hp | hp <;> subst hp <;>
      exact ⟨_, rfl, by norm_num, by norm_num, by norm_num, by norm_num⟩
  · rw [grid2_extent.1, grid2_extent.2]
    exact meshFitsImage_leftHalf
  · simp [stencilIndex, grid2, SIZE_MOD]
  · rw [stencilIndex_leftHalf]
    simp [grid2]
  · rw [stencilIndex_leftHalf]
    simp [grid2]

/-- Instance of the node range theorem: layer 1 of the two-node mesh `firstOutside`. -/
theorem LayerMapping_node_range_witness :
    firstOutside.getNNodes < SIZE_MOD ∧ 1 + 1 < SIZE_MOD ∧ 1 ≤ 1 ∧
    lastNode firstOutside.getNNodes 1 1 ≤ firstOutside.getNNodes ∧
    ∃ res after, LayerMapping keepMesh (some firstOutside) (some unitRaster) 1 1 false
        = .ok res ∧
      res.mesh = some after ∧ after.elems = firstOutside.elems ∧
      after.nodes.length = firstOutside.nodes.length ∧
      after.nodes.get? 0 = firstOutside.nodes.get? 0 := by
  have h1 : firstOutside.getNNodes < SIZE_MOD := by
    show (2 : Nat) < SIZE_MOD
    unfold SIZE_MOD
    omega
  have h2 : 1 + 1 < SIZE_MOD := by
    unfold SIZE_MOD
    omega
  obtain ⟨hf, -, hle, -, hall⟩ := LayerMapping_node_range keepMesh firstOutside unitRaster 1 1
    false h1 h2 (le_refl 1)
  obtain ⟨after, ha, -, he, hlen, hj⟩ := hall _ LayerMapping_firstOutside
  have h0 : 0 < firstNode firstOutside.getNNodes 1 1 := by
    rw [hf]
    show 0 < 1 * (2 / (1 + 1))
    omega
  exact ⟨h1, h2, le_refl 1, hle, _, after, LayerMapping_firstOutside, ha, he, hlen,
    (hj 0).1 (Or.inl h0)⟩

end MshLayerMapper
